import Mathlib

/-!
Verification development for the uiautodev LLM chat backend.

This file gives a shallow embedding of the core components of the
repository and proves properties about them:

* `_build_llm_payload_messages` (src/uiautodev/services/llm_service.py,
  the Prompt Assembler), embedded over a JSON-like value type so that the
  dynamic-typing behaviour of the Python code (including the places where
  it raises) is visible;
* `fetch_rag_code_snippets` (src/uiautodev/services/llm/tools/rag.py, the
  Retrieval Client), embedded over `List Char` so that length bounds are
  provable;
* `generate_chat_completion_stream` (src/uiautodev/services/llm_service.py,
  the Stream Decoder / Tool-Call Loop Controller / Completion Orchestrator),
  embedded as a function from a provider oracle (one response per upstream
  call) to the list of emitted stream events, the number of upstream calls
  made, and the final message history;
* `stream_deepseek_response` (src/uiautodev/app.py, the older chat stream
  generator without tool support).

External effects are parameters: the upstream provider is an oracle indexed
by call count, JSON parsing of tool arguments (Python stdlib `json.loads`)
and the retrieval HTTP call are oracle functions.
-/

set_option maxHeartbeats 1000000

namespace UiAutoDev

/-! ### Definitions: the shallow embedding of the source. -/

/-- JSON-like values: the shallow embedding of the arbitrary structured
values held by the `context` mapping of a chat request
(`LlmServiceChatRequest.context : Dict[str, Any]` in model.py). Numbers are
modelled as integers; no claim depends on float arithmetic. -/
inductive JValue where
  | null
  | bool (b : Bool)
  | num (n : Int)
  | str (s : String)
  | arr (xs : List JValue)
  | obj (fields : List (String × JValue))

/-- Python truthiness of a JSON value (`if v:`). -/
def truthy : JValue → Bool
  | .null => false
  | .bool b => b
  | .num n => n != 0
  | .str s => s != ""
  | .arr xs => !xs.isEmpty
  | .obj fields => !fields.isEmpty

/-- Is the value a string (`isinstance(v, str)` shape tests). -/
def JValue.isStr : JValue → Bool
  | .str _ => true
  | _ => false

/-- Is the value a list (`isinstance(v, list)`). -/
def JValue.isArr : JValue → Bool
  | .arr _ => true
  | _ => false

/-- Lookup in an embedded Python dict (`d.get(k)`), `none` when absent. -/
def objGet (fields : List (String × JValue)) (k : String) : Option JValue :=
  (fields.find? (fun kv => kv.1 == k)).map (·.2)

/-- `context_data.get(key)`: Python returns `None` for a missing key, which
behaves exactly like an embedded `null` in every use site of the source
(truthiness tests and walrus conditions), so absent keys map to `.null`. -/
def ctxGet (ctx : List (String × JValue)) (k : String) : JValue :=
  (objGet ctx k).getD .null

mutual

/-- Structural equality of JSON values, embedding Python `==` on the JSON
fragment. (Python dict equality ignores key order; the embedding compares
fields in order. The only use site compares two strings under the
well-shapedness hypotheses of the theorems below, where the two agree.) -/
def jeq : JValue → JValue → Bool
  | .null, .null => true
  | .bool a, .bool b => a == b
  | .num a, .num b => a == b
  | .str a, .str b => a == b
  | .arr a, .arr b => jeqList a b
  | .obj a, .obj b => jeqFields a b
  | _, _ => false

def jeqList : List JValue → List JValue → Bool
  | [], [] => true
  | x :: xs, y :: ys => jeq x y && jeqList xs ys
  | _, _ => false

def jeqFields : List (String × JValue) → List (String × JValue) → Bool
  | [], [] => true
  | (k, v) :: xs, (k2, v2) :: ys => k == k2 && jeq v v2 && jeqFields xs ys
  | _, _ => false

end

mutual

/-- Rendering of a JSON value inside an f-string (`str(v)` / `repr` for
nested values). The exact text of non-string renderings is irrelevant to
every claim; strings render as themselves, as in Python. -/
def pyStr : JValue → String
  | .str s => s
  | v => pyRepr v

def pyRepr : JValue → String
  | .null => "None"
  | .bool true => "True"
  | .bool false => "False"
  | .num n => toString n
  | .str s => "\x27" ++ s ++ "\x27"
  | .arr xs => "[" ++ String.intercalate ", " (pyReprList xs) ++ "]"
  | .obj fields => "\x7b" ++ String.intercalate ", " (pyReprFields fields) ++ "\x7d"

def pyReprList : List JValue → List String
  | [] => []
  | x :: xs => pyRepr x :: pyReprList xs

def pyReprFields : List (String × JValue) → List String
  | [] => []
  | (k, v) :: xs => ("\x27" ++ k ++ "\x27: " ++ pyRepr v) :: pyReprFields xs

end

mutual

/-- `json.dumps` of an embedded value (string escaping and the `indent=2`
layout are elided; no claim depends on the rendered text). -/
def jsonDumps : JValue → String
  | .null => "null"
  | .bool true => "true"
  | .bool false => "false"
  | .num n => toString n
  | .str s => "\x22" ++ s ++ "\x22"
  | .arr xs => "[" ++ String.intercalate ", " (jsonDumpsList xs) ++ "]"
  | .obj fields => "\x7b" ++ String.intercalate ", " (jsonDumpsFields fields) ++ "\x7d"

def jsonDumpsList : List JValue → List String
  | [] => []
  | x :: xs => jsonDumps x :: jsonDumpsList xs

def jsonDumpsFields : List (String × JValue) → List String
  | [] => []
  | (k, v) :: xs => ("\x22" ++ k ++ "\x22: " ++ jsonDumps v) :: jsonDumpsFields xs

end

/-- Does `pat` occur at the start of `l`. -/
def charsStartWith : List Char → List Char → Bool
  | [], _ => true
  | _ :: _, [] => false
  | p :: ps, c :: cs => p == c && charsStartWith ps cs

/-- Does `pat` occur anywhere in `l` (Python `pat in s` on strings). -/
def charsContain (pat : List Char) : List Char → Bool
  | [] => pat.isEmpty
  | c :: cs => charsStartWith pat (c :: cs) || charsContain pat cs

/-- Python substring test `pat in s`. -/
def strContainsSubstr (s pat : String) : Bool :=
  charsContain pat.data s.data

/-- Python `needle not in v`: substring test on strings, membership on
lists, key membership on dicts, `TypeError` otherwise. -/
def pyNotIn (needle : String) (v : JValue) : Except String Bool :=
  match v with
  | .str s => .ok (!(strContainsSubstr s needle))
  | .arr xs => .ok (!(xs.any (fun x => jeq x (.str needle))))
  | .obj fields => .ok (!(fields.any (fun kv => kv.1 == needle)))
  | _ => .error "TypeError: argument of type is not iterable"

/-- Python `needle in container` for the redundancy check of the general
console section. -/
def pyIn (needle container : JValue) : Except String Bool :=
  match container with
  | .str s =>
    match needle with
    | .str p => .ok (strContainsSubstr s p)
    | _ => .error "TypeError: in string requires string as left operand"
  | .arr xs => .ok (xs.any (fun x => jeq x needle))
  | .obj fields =>
    match needle with
    | .arr _ => .error "TypeError: unhashable type"
    | .obj _ => .error "TypeError: unhashable type"
    | .str p => .ok (fields.any (fun kv => kv.1 == p))
    | _ => .ok false
  | _ => .error "TypeError: argument of type is not iterable"

/-- Python `len(v)`: defined for strings, lists and dicts, `TypeError`
otherwise. -/
def pyLen (v : JValue) : Except String Nat :=
  match v with
  | .str s => .ok s.length
  | .arr xs => .ok xs.length
  | .obj fields => .ok fields.length
  | _ => .error "TypeError: object has no len"

/-- Python `v[:n]` for a non-negative `n`: prefix on strings and lists,
`TypeError` otherwise. -/
def pySliceTo (v : JValue) (n : Nat) : Except String JValue :=
  match v with
  | .str s => .ok (.str (String.mk (s.data.take n)))
  | .arr xs => .ok (.arr (xs.take n))
  | _ => .error "TypeError: object is not subscriptable"

/-- Python `v[-m:]` for a non-negative `m` (the last `m` items; the whole
value when `m = 0`, since `v[-0:] = v[0:]`). -/
def pySliceLast (v : JValue) (m : Nat) : Except String JValue :=
  match v with
  | .str s => .ok (.str (if m = 0 then s else String.mk (s.data.drop (s.data.length - m))))
  | .arr xs => .ok (.arr (if m = 0 then xs else xs.drop (xs.length - m)))
  | _ => .error "TypeError: object is not subscriptable"

/-- A chat message dict as appended to `messages` by the service
(`role`, `content`, and optionally `name`, `tool_call_id`, `tool_calls`).
`content = none` embeds Python `None`. -/
structure FuncAcc where
  name : Option String := none
  arguments : Option String := none
deriving DecidableEq

/-- An accumulated tool-call object, the entries of
`tool_calls_to_process`: a dict whose keys `id`, `type` and `function`
appear only once set. `function = none` embeds absence of the key. -/
structure ToolCallAcc where
  id : Option String := none
  type : Option String := none
  function : Option FuncAcc := none
deriving DecidableEq

structure Message where
  role : String
  content : Option String
  name : Option String := none
  tool_call_id : Option String := none
  tool_calls : Option (List ToolCallAcc) := none
deriving DecidableEq

/-- The fixed system prompt of `_build_llm_payload_messages`
(llm_service.py lines 135-234). The multi-page literal is abbreviated to
its opening sentence: every claim depends only on whether this fixed text
or the override is selected, never on its content. -/
def SYSTEM_PROMPT : String :=
  "You are an elite Python automation assistant embedded inside a UI inspection and scripting tool for Android."

/-- `system_prompt_override or (r...)`: Python `or` falls back to the
default also when the override is the empty string. -/
def systemContent (ov : Option String) : String :=
  match ov with
  | some s => if s = "" then SYSTEM_PROMPT else s
  | none => SYSTEM_PROMPT

def systemMessage (ov : Option String) : Message :=
  { role := "system", content := some (systemContent ov) }

def userMessage (c : String) : Message :=
  { role := "user", content := some c }

def MAX_CAPTURED_ERROR_LEN : Nat := 6000

def MAX_GENERAL_CONSOLE_LEN : Nat := 1000

/-- The `rag_code_snippets` section (llm_service.py lines 248-258). -/
def ragSection (rag : JValue) : Except String (List String) :=
  if truthy rag then do
    let b1 ← pyNotIn "Error:" rag
    if b1 then do
      let b2 ← pyNotIn "No specific code snippets found" rag
      if b2 then
        pure ["## Retrieved uiautomator2 Code Snippets (Potentially from Tool Call / Cache):\n" ++ pyStr rag]
      else pure []
    else pure []
  else pure []

/-- The head+tail truncation of the critical traceback
(llm_service.py lines 262-271): above 6000 characters, the first 2950
and last 2950 characters are kept around a marker. -/
def criticalContent (uce : JValue) (n : Nat) : Except String String :=
  if MAX_CAPTURED_ERROR_LEN < n then do
    let a ← pySliceTo uce 2950
    let b ← pySliceLast uce 2950
    pure (pyStr a ++ "\n... (Full Traceback Truncated due to excessive length) ...\n" ++ pyStr b)
  else pure (pyStr uce)

/-- The critical traceback section (llm_service.py lines 260-277). -/
def criticalSection (uce : JValue) : Except String (List String) :=
  if truthy uce then do
    let n ← pyLen uce
    let contentVal ← criticalContent uce n
    pure ["## ❗ CRITICAL: User-Provided Last Python Error Traceback:\nThe user has explicitly included the following error traceback. This is the primary issue to diagnose and fix in the script.\n```text\n" ++ contentVal ++ "\n```"]
  else pure []

/-- One entry of the selected-elements loop (llm_service.py lines
283-309): non-dict entries are skipped, a present non-dict `properties`
raises `AttributeError` at `.items()`. -/
def elementDetail (i : Nat) (elem : JValue) : Except String (Option String) :=
  match elem with
  | .obj fields => do
    let properties := (objGet fields "properties").getD (.obj [])
    let filtered ←
      match properties with
      | .obj pf => .ok (pf.filter (fun kv =>
          kv.1 == "resource-id" || kv.1 == "text" || kv.1 == "content-desc" ||
          kv.1 == "class" || kv.1 == "package" || kv.1 == "clickable" || kv.1 == "enabled"))
      | _ => .error "AttributeError: object has no attribute items"
    let seBrief : JValue := .obj
      [("name", (objGet fields "name").getD .null),
       ("properties", .obj filtered),
       ("rect", (objGet fields "rect").getD .null),
       ("generatedXPath", (objGet fields "generatedXPath").getD .null),
       ("key_for_reference", (objGet fields "key").getD .null)]
    pure (some ("#### Element " ++ toString (i + 1) ++ " (User Selection Order - Key: " ++
      pyStr ((objGet fields "key").getD (.str "N/A")) ++ "):\n```json\n" ++ jsonDumps seBrief ++ "\n```"))
  | _ => pure none

/-- The enumerated loop over selected elements. -/
def collectDetails (i : Nat) : List JValue → Except String (List String)
  | [] => pure []
  | e :: es => do
    let d ← elementDetail i e
    let rest ← collectDetails (i + 1) es
    pure (match d with | some s => s :: rest | none => rest)

/-- The selected-elements section (llm_service.py lines 280-314). -/
def selectedSection (sel : JValue) : Except String (List String) :=
  match sel with
  | .arr elems =>
    if elems.isEmpty then pure []
    else do
      let details ← collectDetails 0 elems
      if details.isEmpty then pure []
      else pure ["### Selected UI Elements (" ++ toString details.length ++ "):\n" ++
        String.intercalate "\n\n" details]
  | _ => pure []

/-- The UI-hierarchy one-line summary (llm_service.py lines 316-322):
`.get` on a truthy non-dict raises `AttributeError`. -/
def hierSection (hier : JValue) : Except String (List String) :=
  if truthy hier then
    match hier with
    | .obj fields => do
      let n ← pyLen ((objGet fields "children").getD (.arr []))
      pure ["### UI Hierarchy Overview: Root element is \x27" ++
        pyStr ((objGet fields "name").getD (.str "N/A")) ++ "\x27 with " ++ toString n ++
        " direct children."]
    | _ => .error "AttributeError: object has no attribute get"
  else pure []

/-- The redundancy test of the general console section
(llm_service.py lines 326-329): Python short-circuit of
`user_captured_error and (a == b or a in b)`. -/
def consoleRedundant (uce gco : JValue) : Except String Bool :=
  if truthy uce then
    if jeq uce gco then pure true else pyIn uce gco
  else pure false

/-- The general console-output section (llm_service.py lines 324-336),
suppressed when it duplicates the critical traceback. -/
def consoleSection (uce gco : JValue) : Except String (List String) :=
  if truthy gco then do
    let isRedundant ← consoleRedundant uce gco
    if isRedundant then pure []
    else do
      let truncated ← pySliceLast gco MAX_GENERAL_CONSOLE_LEN
      pure ["### General Recent Python Console Output (last 1000 chars):\n(Note: If a \x27CRITICAL: User-Provided Last Python Error\x27 section is present above, prioritize analyzing that.)\n```\n" ++ pyStr truncated ++ "\n```"]
  else pure []

/-- The current-editor-code section (llm_service.py lines 338-341); an
f-string of an arbitrary value, it cannot raise. -/
def codeSection (pc : JValue) : List String :=
  if truthy pc then ["### Current Python Code in Editor:\n```python\n" ++ pyStr pc ++ "\n```"]
  else []

/-- The device-info section (llm_service.py lines 342-344). -/
def deviceSection (di : JValue) : List String :=
  if truthy di then ["### Device Info:\n```json\n" ++ jsonDumps di ++ "\n```"]
  else []

/-- All context sections in source order: `context_sections_for_llm`
(rag, critical traceback) followed, when any tool-context part exists, by
one combined tool-context section. -/
def buildSections (ctx : List (String × JValue)) : Except String (List String) := do
  let s1 ← ragSection (ctxGet ctx "rag_code_snippets")
  let uce := ctxGet ctx "pythonLastErrorTraceback"
  let s2 ← criticalSection uce
  let t1 ← selectedSection (ctxGet ctx "selectedElements")
  let t2 ← hierSection (ctxGet ctx "uiHierarchy")
  let t3 ← consoleSection uce (ctxGet ctx "pythonConsoleOutput")
  let t4 := codeSection (ctxGet ctx "pythonCode")
  let t5 := deviceSection (ctxGet ctx "deviceInfo")
  let toolParts := t1 ++ t2 ++ t3 ++ t4 ++ t5
  pure (s1 ++ s2 ++
    (if toolParts.isEmpty then []
     else ["## Current UI/System Context (from Tool):\n" ++ String.intercalate "\n\n" toolParts]))

/-- `_build_llm_payload_messages` (llm_service.py lines 128-359): one
system message, the history unchanged, then one user message made of the
context sections followed by the literal user request. The `Except` layer
records exactly the inputs on which the Python function raises. -/
def build_llm_payload_messages (user_prompt : String) (context_data : List (String × JValue))
    (history : List Message) (system_prompt_override : Option String := none) :
    Except String (List Message) := do
  let sections ← buildSections context_data
  let fullUserContent :=
    (if sections.isEmpty then "" else String.intercalate "\n\n" sections ++ "\n\n") ++
    "## User Request:\n" ++ user_prompt
  pure (systemMessage system_prompt_override :: history ++ [userMessage fullUserContent])

/-- Convenience: did the embedded Python call return normally. -/
def exceptOk {ε α : Type} : Except ε α → Bool
  | .ok _ => true
  | .error _ => false

/-- Characters of a string literal. -/
def lit (s : String) : List Char := s.data

/-- Python `str.strip()` whitespace (the characters stripped by default). -/
def isPySpace (c : Char) : Bool :=
  c == ' ' || c == '\t' || c == '\n' || c == '\x0d' || c == '\x0b' || c == '\x0c'

/-- Python `s.lstrip()`. -/
def pyLStrip (s : List Char) : List Char := s.dropWhile isPySpace

/-- Python `s.rstrip()`. -/
def pyRStrip (s : List Char) : List Char := (s.reverse.dropWhile isPySpace).reverse

/-- Python `s.strip()`. -/
def pyStrip (s : List Char) : List Char := pyRStrip (pyLStrip s)

/-- Python `s[:k]` where `k` may be negative (a negative bound drops
`|k|` characters from the end). -/
def pyCut (s : List Char) (k : Int) : List Char :=
  if 0 ≤ k then s.take k.toNat else s.take (s.length - (-k).toNat)

/-- One retrieval result as read out of the response JSON, with the
defaults of `r.get("filename", "N/A")`, `r.get("score", 0.0)`,
`r.get("text", "")` already applied. The relevance score appears only
inside an f-string as `{score:.2f}`; the field carries that rendered
text, since no claim depends on float arithmetic. -/
structure RagResult where
  filename : List Char := lit "N/A"
  scoreStr : List Char := lit "0.00"
  text : List Char := lit ""
deriving DecidableEq

def MAX_RAG_SNIPPET_LEN_FOR_LLM : Nat := 7000

/-- The fixed empty-result sentinel of the Retrieval Client. -/
def ragSentinel : List Char :=
  lit "No specific code snippets found in the uiautomator2 codebase relevant to this query."

/-- The overall truncation marker appended by the Retrieval Client. -/
def ragOverallMarker : List Char := lit "\n... (overall RAG context truncated)"

/-- The per-snippet truncation marker. -/
def ragSnippetMarker : List Char := lit "... (truncated)"

/-- The snippet text after the per-snippet truncation (rag.py lines
50-51): when longer than `7000 // top_k` it is cut to that budget minus
50 (a Python slice, so a negative bound wraps) and the marker appended. -/
def ragSnippetText (maxIndividual : Nat) (text : List Char) : List Char :=
  if maxIndividual < text.length then pyCut text ((maxIndividual : Int) - 50) ++ ragSnippetMarker
  else text

/-- One formatted snippet block (rag.py lines 53-55). -/
def ragBlock (maxIndividual : Nat) (i : Nat) (r : RagResult) : List Char :=
  lit "Snippet " ++ lit (toString (i + 1)) ++ lit " (from " ++ r.filename ++
  lit ", score: " ++ r.scoreStr ++ lit "):\n" ++ lit "```python\n" ++
  pyStrip (ragSnippetText maxIndividual r.text) ++ lit "\n```\n\n"

/-- The enumerated concatenation of snippet blocks. -/
def ragBlocks (maxIndividual : Nat) (i : Nat) : List RagResult → List Char
  | [] => []
  | r :: rs => ragBlock maxIndividual i r ++ ragBlocks maxIndividual (i + 1) rs

/-- `context_str` before the overall ceiling is applied (rag.py lines
42-55). Meaningful for `top_k ≠ 0`; division by zero raises in Python
and is handled separately in `fetch_rag_code_snippets`. -/
def ragBody (top_k : Nat) (results : List RagResult) : List Char :=
  lit "Relevant uiautomator2 Code Snippets Found:\n\n" ++
  ragBlocks (MAX_RAG_SNIPPET_LEN_FOR_LLM / top_k) 0 results

/-- The upstream outcome of the retrieval HTTP call: either the parsed
`results` array, or any transport/HTTP/decoding exception (connection
error, `raise_for_status`, bad JSON) with its rendered message. -/
inductive RagUpstream where
  | ok (results : List RagResult)
  | failure (msg : List Char)

/-- `fetch_rag_code_snippets` (rag.py lines 19-67). The URL check comes
first; every exception inside the `try` is caught and rendered as an
`"Error: ..."` string, including the `ZeroDivisionError` raised by
`7000 // top_k` when `top_k = 0`. -/
def fetch_rag_code_snippets (urlConfigured : Bool) (upstream : RagUpstream)
    (top_k : Nat := 5) : List Char :=
  if !urlConfigured then lit "Error: RAG service URL not configured for snippet retrieval."
  else
    match upstream with
    | .failure msg => lit "Error: " ++ msg
    | .ok results =>
      if results.isEmpty then ragSentinel
      else if top_k = 0 then lit "Error: integer division or modulo by zero"
      else
        let body := ragBody top_k results
        pyStrip (if MAX_RAG_SNIPPET_LEN_FOR_LLM < body.length then
                   body.take (MAX_RAG_SNIPPET_LEN_FOR_LLM - 100) ++ ragOverallMarker
                 else body)

/-- One yielded stream event: a `data:` content fragment, an
`event: error`, or an `event: end-of-stream`. -/
inductive Event where
  | contentDelta (text : String)
  | errorEv (msg : String)
  | endOfStream (msg : String)
deriving DecidableEq

/-- One entry of `delta.tool_calls` in a streamed chunk:
`tc_delta.get("index", 0)` plus the optional `id`, `type` and `function`
fragments. A field that is absent or JSON `null` is `none`. -/
structure FuncDelta where
  name : Option String := none
  arguments : Option String := none
deriving DecidableEq

structure TCDelta where
  index : Nat := 0
  id : Option String := none
  type : Option String := none
  function : Option FuncDelta := none
deriving DecidableEq

/-- Python truthiness of an optional string field (`tc_delta.get("id")`):
absent, null and the empty string are all falsy. -/
def optTruthy : Option String → Bool
  | some s => s != ""
  | none => false

/-- Merging one tool-call delta fragment into the accumulated entry
(llm_service.py lines 490-516): `id`, `type` and the function `name` are
set once, on the first truthy fragment; `arguments` fragments are
appended; the `function` sub-dict is created unconditionally. -/
def mergeTC (cur : ToolCallAcc) (d : TCDelta) : ToolCallAcc :=
  let cur := if cur.id = none && optTruthy d.id then { cur with id := d.id } else cur
  let cur := if cur.type = none && optTruthy d.type then { cur with type := d.type } else cur
  let cur := { cur with function := some (cur.function.getD {}) }
  match d.function with
  | none => cur
  | some f =>
    let fn := cur.function.getD {}
    let fn := if fn.name = none && optTruthy f.name then { fn with name := f.name } else fn
    let fn :=
      match f.arguments with
      | some a => if a = "" then fn else { fn with arguments := some (fn.arguments.getD "" ++ a) }
      | none => fn
    { cur with function := some fn }

/-- The accumulation loop over the fragments of one chunk
(llm_service.py lines 476-516). When a fragment's `index` is at least
the table length, exactly one empty dict is appended; the subsequent
indexed access then raises `IndexError` precisely when the index is
still out of range (an index gap), which aborts the chunk. The `Bool`
is the raised-`IndexError` flag; the returned table keeps every
mutation made before the exception. -/
def accumTCDeltas (table : List ToolCallAcc) : List TCDelta → List ToolCallAcc × Bool
  | [] => (table, false)
  | d :: ds =>
    let t1 := if table.length ≤ d.index then table ++ [{}] else table
    if d.index < t1.length then
      accumTCDeltas (t1.set d.index (mergeTC (t1.getD d.index {}) d)) ds
    else (t1, true)

/-- The fields of `choices[0]` extracted from one parsed `data:` chunk:
`delta.tool_calls` (absent embeds as `[]`, which is also how a falsy
empty list behaves), `delta.content` (`none` embeds absence, `some ""`
a present empty delta), `finish_reason`, and `message.tool_calls`
(the fully-formed fallback list). -/
structure ChoiceDelta where
  toolCalls : List TCDelta := []
  content : Option String := none
  finishReason : Option String := none
  messageToolCalls : List ToolCallAcc := []
deriving DecidableEq

/-- One upstream SSE line: blank (skipped), the `data: [DONE]` sentinel,
a `data:` line whose JSON parsed into `choices[0]` fields, a malformed
`data:` line (JSON decode failure or empty `choices`, logged and
skipped), or any other line (ignored by the loop). -/
inductive SSELine where
  | blank
  | done
  | chunk (c : ChoiceDelta)
  | malformed
  | other
deriving DecidableEq

/-- The per-iteration mutable state of the line loop:
`full_response_content` and `tool_calls_to_process` (`none` embeds the
Python `None` initial value). -/
structure IterState where
  content : String := ""
  tcp : Option (List ToolCallAcc) := none
deriving DecidableEq

/-- Python truthiness of `tool_calls_to_process` (`None` and `[]` are
both falsy). -/
def truthyTcp : Option (List ToolCallAcc) → Bool
  | some (_ :: _) => true
  | _ => false

/-- Control signal of one chunk: continue with the next line, or return
from the whole generator (the `finish_reason == "stop"` early return). -/
inductive Signal where
  | next
  | ret
deriving DecidableEq

/-- The tool-call accumulation step of one chunk (llm_service.py lines
471-519): when `delta.tool_calls` is truthy, the fragments are merged
into the table (initialised from `None` to `[]` on first use). The
`Bool` is the raised-`IndexError` flag. -/
def processChunkToolCalls (st : IterState) (c : ChoiceDelta) : IterState × Bool :=
  if c.toolCalls.isEmpty then (st, false)
  else
    let r := accumTCDeltas (st.tcp.getD []) c.toolCalls
    ({ st with tcp := some r.1 }, r.2)

/-- The content-delta step of one chunk (llm_service.py lines 521-524):
a present content (including the empty string) is appended to
`full_response_content` and yielded. -/
def processChunkContent (st : IterState) (c : ChoiceDelta) : IterState × List Event :=
  match c.content with
  | some s => ({ st with content := st.content ++ s }, [Event.contentDelta s])
  | none => (st, [])

/-- The finish-reason step of one chunk (llm_service.py lines 526-549):
on `"tool_calls"` with an empty table, fall back to the fully-formed
`message.tool_calls` list; on `"stop"` with no pending tool calls,
yield end-of-stream and return from the generator. -/
def processChunkFinish (st : IterState) (evs : List Event) (c : ChoiceDelta) :
    IterState × List Event × Signal :=
  match c.finishReason with
  | some fr =>
    if fr = "" then (st, evs, .next)
    else if fr = "tool_calls" then
      let st :=
        if !truthyTcp st.tcp && !c.messageToolCalls.isEmpty then
          { st with tcp := some c.messageToolCalls }
        else st
      (st, evs, .next)
    else if fr = "stop" && !truthyTcp st.tcp then
      (st, evs ++ [Event.endOfStream "Stream completed by stop reason"], .ret)
    else (st, evs, .next)
  | none => (st, evs, .next)

/-- Processing of one well-formed `data:` chunk (llm_service.py lines
467-549): tool-call fragments are accumulated first (an `IndexError`
there is swallowed by the malformed-chunk handler, dropping the rest of
the chunk but keeping the table mutations); then a present content delta
is appended to `full_response_content` and yielded; then `finish_reason`
is examined. -/
def processChunk (st : IterState) (c : ChoiceDelta) : IterState × List Event × Signal :=
  let p := processChunkToolCalls st c
  if p.2 then (p.1, [], .next)
  else
    let q := processChunkContent p.1 c
    processChunkFinish q.1 q.2 c

/-- How one iteration's line loop ended: the generator returned
(`finished`: an early return, with its end-of-stream already emitted
when one is due), the `[DONE]` sentinel arrived with pending tool calls
(`brokeDone`), or the lines ran out with the loop still reading
(`exhausted`). -/
inductive LineOutcome where
  | finished
  | brokeDone
  | exhausted
deriving DecidableEq

/-- The `async for line in response.aiter_lines()` loop
(llm_service.py lines 451-553). -/
def runLines (st : IterState) : List SSELine → IterState × List Event × LineOutcome
  | [] => (st, [], .exhausted)
  | l :: ls =>
    match l with
    | .blank => runLines st ls
    | .malformed => runLines st ls
    | .other => runLines st ls
    | .done =>
      if truthyTcp st.tcp then (st, [], .brokeDone)
      else (st, [Event.endOfStream "Stream completed by [DONE]"], .finished)
    | .chunk c =>
      let (st1, evs, sig) := processChunk st c
      match sig with
      | .ret => (st1, evs, .finished)
      | .next =>
        let (st2, evs2, out) := runLines st1 ls
        (st2, evs ++ evs2, out)

/-- The tool-result message appended for one requested call
(llm_service.py lines 583-636). `parseQuery` is the oracle for
`json.loads(arguments)` followed by `arguments.get("query")` with its
truthiness check (`.ok query`, or `.error text` rendering the caught
`JSONDecodeError`/`ValueError`); `fetchTool` is the oracle for the
network call `_fetch_rag_code_snippets(query)`. -/
def toolResponseMessage (parseQuery : String → Except String String)
    (fetchTool : String → String) (tc : ToolCallAcc) : Message :=
  let fname := tc.function.bind (·.name)
  if fname = some "search_uiautomator2_code_snippets" then
    let args := (tc.function.bind (·.arguments)).getD "\x7b\x7d"
    let content :=
      match parseQuery args with
      | .ok q => fetchTool q
      | .error e => "Error: Invalid arguments for search_uiautomator2_code_snippets: " ++ e
    { role := "tool", tool_call_id := tc.id, name := fname, content := some content }
  else
    { role := "tool", tool_call_id := tc.id, name := fname,
      content := some ("Error: Unknown tool \x27" ++ (fname.getD "None") ++ "\x27.") }

/-- The assistant turn recorded before the tool turns (llm_service.py
lines 570-577): `content` is the partial text accumulated before the
tool call, or `None` when empty (Python `full_response_content or None`),
and it carries the full accumulated tool-call list. -/
def assistantToolCallMessage (st : IterState) : Message :=
  { role := "assistant",
    content := if st.content = "" then none else some st.content,
    tool_calls := some (st.tcp.getD []) }

/-- A mid-stream network-level exception: `httpx.RequestError`, or any
other exception, caught by the two handlers at llm_service.py lines
555-564. -/
inductive NetFailure where
  | request (msg : String)
  | unexpected (msg : String)
deriving DecidableEq

/-- One upstream provider response, covering every way one
`client.stream(...)` call can behave: the initial HTTP status, the body
(read only on the non-200 path), the SSE lines delivered, and an
optional exception raised once the delivered lines are exhausted while
the loop is still reading. -/
structure ProviderResponse where
  status : Nat := 200
  body : String := ""
  lines : List SSELine := []
  netErr : Option NetFailure := none
deriving DecidableEq

/-- The `while iteration_count < max_iterations` loop of
`generate_chat_completion_stream` (llm_service.py lines 395-662),
structured over the remaining iteration budget. `provider` is the
oracle giving the response of the n-th upstream call (the request
payload — model, temperature, tools, `tool_choice` — is faithfully
constructed in the source but not observable here, so it is not
threaded). Returns the emitted events, the number of upstream calls
made, and the final `messages` list. -/
def runIterationsFrom (provider : Nat → ProviderResponse)
    (parseQuery : String → Except String String) (fetchTool : String → String) :
    Nat → Nat → List Message → List Event × Nat × List Message
  | 0, calls, messages =>
    ([Event.errorEv "Processing loop exceeded max iterations.",
      Event.endOfStream "Stream ended due to max iterations."], calls, messages)
  | remaining + 1, calls, messages =>
    let r := provider calls
    if r.status ≠ 200 then
      ([Event.errorEv ("LLM API Error (" ++ toString r.status ++ ")"),
        Event.endOfStream "Stream ended due to API error"], calls + 1, messages)
    else
      let (st, evs, out) := runLines {} r.lines
      match out with
      | .finished => (evs, calls + 1, messages)
      | .brokeDone =>
        if truthyTcp st.tcp then
          let tcs := st.tcp.getD []
          let newMessages := messages ++
            assistantToolCallMessage st :: tcs.map (toolResponseMessage parseQuery fetchTool)
          let rest := runIterationsFrom provider parseQuery fetchTool remaining (calls + 1) newMessages
          (evs ++ rest.1, rest.2)
        else
          (evs ++ [Event.endOfStream "Stream ended after processing."], calls + 1, messages)
      | .exhausted =>
        match r.netErr with
        | some (.request m) =>
          (evs ++ [Event.errorEv ("Network error: " ++ m),
                   Event.endOfStream "Stream ended due to network error."], calls + 1, messages)
        | some (.unexpected m) =>
          (evs ++ [Event.errorEv ("Unexpected error: " ++ m),
                   Event.endOfStream "Stream ended due to server error."], calls + 1, messages)
        | none =>
          if truthyTcp st.tcp then
            let tcs := st.tcp.getD []
            let newMessages := messages ++
              assistantToolCallMessage st :: tcs.map (toolResponseMessage parseQuery fetchTool)
            let rest := runIterationsFrom provider parseQuery fetchTool remaining (calls + 1) newMessages
            (evs ++ rest.1, rest.2)
          else
            (evs ++ [Event.endOfStream "Stream ended after processing."], calls + 1, messages)

/-- `generate_chat_completion_stream` (llm_service.py lines 362-662).
`apiKey` embeds the module-level `DEEPSEEK_API_KEY` (`none` for unset,
and the empty string is falsy exactly as in `if not DEEPSEEK_API_KEY`).
`initialMessages` is the list built by `build_llm_payload_messages`
from the request; `max_iterations = 3` as in the source. -/
def generate_chat_completion_stream (apiKey : Option String)
    (initialMessages : List Message) (provider : Nat → ProviderResponse)
    (parseQuery : String → Except String String) (fetchTool : String → String) :
    List Event × Nat × List Message :=
  if !optTruthy apiKey then
    ([Event.errorEv "Error: DeepSeek API key is not configured on the server.",
      Event.endOfStream "Stream ended due to configuration error"], 0, initialMessages)
  else
    runIterationsFrom provider parseQuery fetchTool 3 0 initialMessages

/-- A failure raised while the app-level generator is consuming the
response: the three handlers at app.py lines 232-249. -/
inductive AppFailure where
  | httpStatusErr (status : Nat) (text : String)
  | requestErr (msg : String)
  | unexpectedErr (msg : String)
deriving DecidableEq

/-- One provider response as seen by `stream_deepseek_response`:
status, body, SSE lines, and an optional exception surfacing after the
delivered lines while the loop is still reading. -/
structure AppProviderResponse where
  status : Nat := 200
  body : String := ""
  lines : List SSELine := []
  failure : Option AppFailure := none
deriving DecidableEq

/-- The line loop of `stream_deepseek_response` (app.py lines 201-230):
only content deltas are re-emitted; `data: [DONE]` yields the
end-of-stream event and breaks. Returns the events and whether the
done-sentinel was seen. -/
def appRunLines : List SSELine → List Event × Bool
  | [] => ([], false)
  | l :: ls =>
    match l with
    | .blank => appRunLines ls
    | .malformed => appRunLines ls
    | .other => appRunLines ls
    | .done => ([Event.endOfStream ""], true)
    | .chunk c =>
      match c.content with
      | some s =>
        let (evs, d) := appRunLines ls
        (Event.contentDelta s :: evs, d)
      | none => appRunLines ls

/-- `stream_deepseek_response` (app.py lines 104-249). On a missing API
key, on a non-200 status, and in every exception handler the generator
yields a single `error` event and then simply returns: none of these
paths emits an end-of-stream marker. The non-200 error message carries
the status code and the decoded body. -/
def stream_deepseek_response (apiKey : Option String) (resp : AppProviderResponse) :
    List Event :=
  if !optTruthy apiKey then
    [Event.errorEv "Error: DeepSeek API key is not configured on the server."]
  else if resp.status ≠ 200 then
    [Event.errorEv ("LLM API Error (" ++ toString resp.status ++ "): " ++ resp.body)]
  else
    let (evs, doneSeen) := appRunLines resp.lines
    if doneSeen then evs
    else
      match resp.failure with
      | none => evs
      | some (.httpStatusErr s t) =>
        evs ++ [Event.errorEv ("LLM API HTTP Error (" ++ toString s ++ "): " ++ t)]
      | some (.requestErr m) =>
        evs ++ [Event.errorEv ("Network issue contacting LLM: " ++ m)]
      | some (.unexpectedErr m) =>
        evs ++ [Event.errorEv ("An unexpected error occurred with the LLM service: " ++ m)]

/-- One step of the always-append semantics of the `arguments` field. -/
def argAppend (base : Option String) (d : TCDelta) : Option String :=
  match d.function.bind (fun f => f.arguments) with
  | some a => if a = "" then base else some (base.getD "" ++ a)
  | none => base

/-- The first truthy (non-null, non-empty) value of a stream of optional
string fragments: the spec-side description of the set-once merge. -/
def firstTruthyString : List (Option String) → Option String
  | [] => none
  | x :: rest => if optTruthy x then x else firstTruthyString rest

/-- The arguments fragments carried by a list of tool-call deltas, in
arrival order. -/
def argFragments (frags : List TCDelta) : List String :=
  frags.filterMap (fun d => d.function.bind (fun f => f.arguments))

/-- Concatenation of a list of strings in order. -/
def strConcat : List String → String
  | [] => ""
  | s :: rest => s ++ strConcat rest

/-- The spec-side description of the accumulated `arguments` value: the
concatenation of all fragments, present as soon as one truthy fragment
arrived (the code never stores a key for fragments that are all absent
or empty). -/
def specMergedArgs (frags : List TCDelta) : Option String :=
  if (argFragments frags).any (fun a => a != "") then some (strConcat (argFragments frags))
  else none

/-- Every event of the list is a content delta. -/
def onlyContentDeltas : List Event → Bool
  | [] => true
  | .contentDelta _ :: rest => onlyContentDeltas rest
  | _ => false

/-- The ordering invariant of the service stream: an `error` event is
followed by exactly one `end_of_stream` and nothing more, and nothing
follows an `end_of_stream`. -/
def streamTailOk : List Event → Bool
  | [] => true
  | .contentDelta _ :: rest => streamTailOk rest
  | .errorEv _ :: rest =>
    match rest with
    | [.endOfStream _] => true
    | _ => false
  | .endOfStream _ :: rest => rest.isEmpty

/-- The (weaker) invariant satisfied by the app-level generator: nothing
follows an `error` event and nothing follows an `end_of_stream`. -/
def appTailOk : List Event → Bool
  | [] => true
  | .contentDelta _ :: rest => appTailOk rest
  | .errorEv _ :: rest => rest.isEmpty
  | .endOfStream _ :: rest => rest.isEmpty

/-- Does the event list contain an end-of-stream marker anywhere. -/
def containsEndOfStream : List Event → Bool
  | [] => false
  | .endOfStream _ :: _ => true
  | _ :: rest => containsEndOfStream rest

/-- A mocked provider response in which the model requests tool calls:
a clean 200 response whose line loop ends still holding a truthy
accumulated tool-call table (it did not return directly). -/
def requestsTools (r : ProviderResponse) : Bool :=
  r.status == 200 && r.netErr.isNone &&
  (match (runLines {} r.lines).2.2 with
   | .finished => false
   | _ => true) &&
  truthyTcp (runLines {} r.lines).1.tcp

/-- The line-loop end state of one upstream response. -/
def roundState (r : ProviderResponse) : IterState := (runLines {} r.lines).1

/-- The pass-through events of one upstream response. -/
def roundEvents (r : ProviderResponse) : List Event := (runLines {} r.lines).2.1

/-- The accumulated tool calls of one upstream response. -/
def roundToolCalls (r : ProviderResponse) : List ToolCallAcc := (roundState r).tcp.getD []

/-- The message history after executing one tool round: the previous
history, one assistant turn carrying the tool-call list, then one tool
turn per requested call, in order. -/
def roundNewMessages (p : String → Except String String) (f : String → String)
    (msgs : List Message) (r : ProviderResponse) : List Message :=
  msgs ++ assistantToolCallMessage (roundState r) ::
    (roundToolCalls r).map (toolResponseMessage p f)

/-- A sample tool-requesting delta fragment used by the witnesses. -/
def sampleToolDelta : TCDelta :=
  { index := 0, id := some "call_1", type := some "function",
    function := some { name := some "search_uiautomator2_code_snippets",
                       arguments := some "\x7b\x22query\x22: \x22x\x22\x7d" } }

/-- The accumulated entry built from `sampleToolDelta`. -/
def sampleToolAcc : ToolCallAcc :=
  { id := some "call_1", type := some "function",
    function := some { name := some "search_uiautomator2_code_snippets",
                       arguments := some "\x7b\x22query\x22: \x22x\x22\x7d" } }

/-- A mocked upstream response that requests one tool call and ends. -/
def sampleToolResponse : ProviderResponse :=
  { lines := [SSELine.chunk { toolCalls := [sampleToolDelta],
                              finishReason := some "tool_calls" }, SSELine.done] }

/-- A mocked upstream response that streams one delta and finishes. -/
def sampleStopResponse : ProviderResponse :=
  { lines := [SSELine.chunk { content := some "Sure" }, SSELine.done] }

/-- A mocked provider that requests the tool once, then answers. -/
def sampleProvider : Nat → ProviderResponse :=
  fun n => if n = 0 then sampleToolResponse else sampleStopResponse

/-- Argument-parsing oracle for the witnesses. -/
def sampleParse : String → Except String String := fun _ => Except.ok "x"

/-- Retrieval oracle for the witnesses. -/
def sampleFetch : String → String := fun _ => "SNIPPETS"

/-- The line-loop end state of `sampleToolResponse`. -/
def sampleIterState : IterState := { content := "", tcp := some [sampleToolAcc] }

/-- A recognised text key may hold any falsy value (skipped) or a
string. -/
def shapeOkStr (v : JValue) : Bool := !truthy v || v.isStr

/-- `uiHierarchy` may be falsy (skipped) or an object whose `children`
key, when present, is an array. -/
def shapeOkHier (v : JValue) : Bool :=
  if truthy v then
    match v with
    | .obj fields =>
      match objGet fields "children" with
      | none => true
      | some c => c.isArr
    | _ => false
  else true

/-- `selectedElements` may be anything but a list whose object entries
carry a non-object `properties`. -/
def shapeOkSel (v : JValue) : Bool :=
  match v with
  | .arr elems => elems.all (fun e =>
      match e with
      | .obj fields =>
        match objGet fields "properties" with
        | none => true
        | some (.obj _) => true
        | some _ => false
      | _ => true)
  | _ => true

/-- The well-shapedness of a context mapping under which the prompt
assembler is proven total: present recognised keys have the shapes the
code can consume. -/
def WellShapedCtx (ctx : List (String × JValue)) : Bool :=
  shapeOkStr (ctxGet ctx "rag_code_snippets") &&
  shapeOkStr (ctxGet ctx "pythonLastErrorTraceback") &&
  shapeOkStr (ctxGet ctx "pythonConsoleOutput") &&
  shapeOkHier (ctxGet ctx "uiHierarchy") &&
  shapeOkSel (ctxGet ctx "selectedElements")

/-! ### Theorems: helper lemmas and the claim theorems, witnesses and counterexamples. -/

theorem exbind_ok {ε α β : Type} (a : α) (f : α → Except ε β) :
    (Except.ok a : Except ε α) >>= f = f a := rfl

theorem exbind_err {ε α β : Type} (e : ε) (f : α → Except ε β) :
    (Except.error e : Except ε α) >>= f = Except.error e := rfl

/-- Characterisation of `mergeTC` on the `id` field: set once, on the
first truthy fragment. -/
theorem mergeTC_id (acc : ToolCallAcc) (d : TCDelta) :
    (mergeTC acc d).id = if acc.id = none && optTruthy d.id then d.id else acc.id := by
  obtain ⟨aid, atype, afn⟩ := acc
  obtain ⟨idx, did, dtype, dfn⟩ := d
  unfold mergeTC
  cases dfn <;> cases afn <;> (repeat' split) <;> (try simp_all [optTruthy]) <;>
    (try (repeat' split)) <;> (try simp_all [optTruthy])

/-- Characterisation of `mergeTC` on the `type` field. -/
theorem mergeTC_type (acc : ToolCallAcc) (d : TCDelta) :
    (mergeTC acc d).type = if acc.type = none && optTruthy d.type then d.type else acc.type := by
  obtain ⟨aid, atype, afn⟩ := acc
  obtain ⟨idx, did, dtype, dfn⟩ := d
  unfold mergeTC
  cases dfn <;> cases afn <;> (repeat' split) <;> (try simp_all [optTruthy]) <;>
    (try (repeat' split)) <;> (try simp_all [optTruthy])

/-- Characterisation of `mergeTC` on the function name. -/
theorem mergeTC_fname (acc : ToolCallAcc) (d : TCDelta) :
    (mergeTC acc d).function.bind (fun f => f.name) =
      if (acc.function.bind (fun f => f.name)) = none
          && optTruthy (d.function.bind (fun f => f.name)) then
        d.function.bind (fun f => f.name)
      else acc.function.bind (fun f => f.name) := by
  obtain ⟨aid, atype, afn⟩ := acc
  obtain ⟨idx, did, dtype, dfn⟩ := d
  unfold mergeTC
  cases dfn <;> cases afn <;> (repeat' split) <;> (try simp_all [optTruthy]) <;>
    (try (repeat' split)) <;> (try simp_all [optTruthy])

/-- Characterisation of `mergeTC` on the function arguments. -/
theorem mergeTC_args (acc : ToolCallAcc) (d : TCDelta) :
    (mergeTC acc d).function.bind (fun f => f.arguments) =
      argAppend (acc.function.bind (fun f => f.arguments)) d := by
  obtain ⟨aid, atype, afn⟩ := acc
  obtain ⟨idx, did, dtype, dfn⟩ := d
  unfold mergeTC argAppend
  cases dfn <;> cases afn <;> (repeat' split) <;> (try simp_all [optTruthy]) <;>
    (try (repeat' split)) <;> (try simp_all [optTruthy])

/-- `mergeTC` always materialises the `function` sub-dict. -/
theorem mergeTC_function_isSome (acc : ToolCallAcc) (d : TCDelta) :
    (mergeTC acc d).function.isSome = true := by
  obtain ⟨aid, atype, afn⟩ := acc
  obtain ⟨idx, did, dtype, dfn⟩ := d
  unfold mergeTC
  cases dfn <;> cases afn <;> (repeat' split) <;> simp_all [optTruthy]

/-- On a singleton table and index-0 fragments, the accumulation loop is
a plain fold of `mergeTC`. -/
theorem accumTCDeltas_singleton (frags : List TCDelta) :
    ∀ acc : ToolCallAcc, (∀ d ∈ frags, d.index = 0) →
      accumTCDeltas [acc] frags = ([frags.foldl mergeTC acc], false) := by
  induction frags with
  | nil => intro acc _; rfl
  | cons d ds ih =>
    intro acc h
    have hd : d.index = 0 := h d (List.mem_cons_self d ds)
    have hds : ∀ x ∈ ds, x.index = 0 := fun x hx => h x (List.mem_cons_of_mem d hx)
    simp only [accumTCDeltas, hd, List.length_cons, List.length_nil, List.foldl_cons]
    norm_num
    exact ih (mergeTC acc d) hds

/-- Starting from the empty table, index-0 fragments build exactly one
accumulated entry, the fold of `mergeTC` over the fragments, and no
`IndexError` is raised. -/
theorem accumTCDeltas_zero (d : TCDelta) (ds : List TCDelta)
    (h : ∀ x ∈ d :: ds, x.index = 0) :
    accumTCDeltas [] (d :: ds) = ([(d :: ds).foldl mergeTC {}], false) := by
  have hd : d.index = 0 := h d (List.mem_cons_self d ds)
  have hds : ∀ x ∈ ds, x.index = 0 := fun x hx => h x (List.mem_cons_of_mem d hx)
  simp only [accumTCDeltas, hd, List.length_nil, List.foldl_cons]
  norm_num
  exact accumTCDeltas_singleton ds (mergeTC {} d) hds

theorem strConcat_all_empty (l : List String) (h : l.any (fun a => a != "") = false) :
    strConcat l = "" := by
  induction l with
  | nil => rfl
  | cons s rest ih =>
    simp only [List.any_cons, Bool.or_eq_false_iff] at h
    obtain ⟨h1, h2⟩ := h
    have : s = "" := by simpa using h1
    simp [strConcat, this, ih h2]

/-- The fold of the one-step `argAppend` computes the concatenation of
the truthy fragments appended to the base. -/
theorem foldl_argAppend (frags : List TCDelta) :
    ∀ base : Option String,
      frags.foldl argAppend base =
        if (argFragments frags).any (fun a => a != "") then
          some (base.getD "" ++ strConcat (argFragments frags))
        else base := by
  induction frags with
  | nil => intro base; simp [argFragments]
  | cons d ds ih =>
    intro base
    simp only [List.foldl_cons]
    cases hda : d.function.bind (fun f => f.arguments) with
    | none =>
      have h1 : argFragments (d :: ds) = argFragments ds := by
        simp [argFragments, List.filterMap_cons, hda]
      have h2 : argAppend base d = base := by simp [argAppend, hda]
      rw [h1, h2, ih base]
    | some a =>
      have h1 : argFragments (d :: ds) = a :: argFragments ds := by
        simp [argFragments, List.filterMap_cons, hda]
      by_cases ha : a = ""
      · have h2 : argAppend base d = base := by simp [argAppend, hda, ha]
        rw [h1, h2, ih base, ha]
        simp [strConcat]
      · have h2 : argAppend base d = some (base.getD "" ++ a) := by
          simp [argAppend, hda, ha]
        rw [h1, h2, ih (some (base.getD "" ++ a))]
        have hany : (a :: argFragments ds).any (fun x => x != "") = true := by
          simp [List.any_cons, ha]
        rw [if_pos hany]
        by_cases hrest : (argFragments ds).any (fun x => x != "") = true
        · rw [if_pos hrest]
          simp [strConcat, String.append_assoc]
        · rw [if_neg hrest]
          have := strConcat_all_empty (argFragments ds) (by simpa using hrest)
          simp [strConcat, this]

/-- The fold of `mergeTC` over fragments, characterised field by field
against the spec-side descriptions. -/
theorem foldl_mergeTC_fields (frags : List TCDelta) :
    ∀ acc : ToolCallAcc,
      ((frags.foldl mergeTC acc).id =
        if acc.id = none then firstTruthyString (frags.map (fun d => d.id)) else acc.id) ∧
      ((frags.foldl mergeTC acc).type =
        if acc.type = none then firstTruthyString (frags.map (fun d => d.type)) else acc.type) ∧
      ((frags.foldl mergeTC acc).function.bind (fun f => f.name) =
        if acc.function.bind (fun f => f.name) = none then
          firstTruthyString (frags.map (fun d => d.function.bind (fun f => f.name)))
        else acc.function.bind (fun f => f.name)) ∧
      ((frags.foldl mergeTC acc).function.bind (fun f => f.arguments) =
        frags.foldl argAppend (acc.function.bind (fun f => f.arguments))) := by
  induction frags with
  | nil =>
    intro acc
    refine ⟨?_, ?_, ?_, ?_⟩ <;>
      simp only [List.foldl_nil, List.map_nil, firstTruthyString] <;>
      (split <;> simp_all)
  | cons d ds ih =>
    intro acc
    simp only [List.foldl_cons, List.map_cons, firstTruthyString]
    obtain ⟨ih1, ih2, ih3, ih4⟩ := ih (mergeTC acc d)
    refine ⟨?_, ?_, ?_, ?_⟩
    · rw [ih1, mergeTC_id]
      by_cases h1 : acc.id = none
      · by_cases h2 : optTruthy d.id = true
        · cases hdi : d.id with
          | none => rw [hdi] at h2; simp [optTruthy] at h2
          | some str =>
            have hs : str ≠ "" := by
              rw [hdi] at h2; simpa [optTruthy] using h2
            simp [h1, h2, hdi, hs, optTruthy]
        · have h2f : optTruthy d.id = false := by simpa using h2
          simp [h1, h2f]
      · simp [h1]
    · rw [ih2, mergeTC_type]
      by_cases h1 : acc.type = none
      · by_cases h2 : optTruthy d.type = true
        · cases hdi : d.type with
          | none => rw [hdi] at h2; simp [optTruthy] at h2
          | some str =>
            have hs : str ≠ "" := by
              rw [hdi] at h2; simpa [optTruthy] using h2
            simp [h1, h2, hdi, hs, optTruthy]
        · have h2f : optTruthy d.type = false := by simpa using h2
          simp [h1, h2f]
      · simp [h1]
    · rw [ih3, mergeTC_fname]
      by_cases h1 : acc.function.bind (fun f => f.name) = none
      · by_cases h2 : optTruthy (d.function.bind (fun f => f.name)) = true
        · cases hdi : d.function.bind (fun f => f.name) with
          | none => rw [hdi] at h2; simp [optTruthy] at h2
          | some str =>
            have hs : str ≠ "" := by
              rw [hdi] at h2; simpa [optTruthy] using h2
            simp [h1, h2, hdi, hs, optTruthy]
        · have h2f : optTruthy (d.function.bind (fun f => f.name)) = false := by simpa using h2
          simp [h1, h2f]
      · simp [h1]
    · rw [ih4, mergeTC_args]

/-- C3, counterexample. The claim states that `id` takes the first
NON-NULL value seen. Feeding two fragments at index 0 whose ids are the
empty string (non-null) and then `"a"`, the accumulator stores `"a"`:
the code merges with Python truthiness (first non-empty wins), so the
first non-null value `""` is not the stored one. -/
theorem C3_counterexample_empty_id_skipped :
    ((accumTCDeltas [] [{ index := 0, id := some "" }, { index := 0, id := some "a" }]).1.getD 0 {}).id
        = some "a"
      ∧ some "a" ≠ (some "" : Option String) := by
  constructor
  · rfl
  · decide

/-- C3, amended: for every sequence of tool-call delta fragments at
index 0, accumulation succeeds with a single entry whose `id`, `type`
and function `name` are the first non-null AND non-empty (Python-truthy)
value seen, and whose function `arguments` is the concatenation of all
arguments fragments in arrival order (stored only once a non-empty
fragment has arrived). -/
theorem C3_amended_set_once_and_append (d : TCDelta) (ds : List TCDelta)
    (h : ∀ x ∈ d :: ds, x.index = 0) :
    (accumTCDeltas [] (d :: ds)).2 = false ∧
    ∃ acc : ToolCallAcc,
      (accumTCDeltas [] (d :: ds)).1 = [acc] ∧
      acc.id = firstTruthyString ((d :: ds).map (fun x => x.id)) ∧
      acc.type = firstTruthyString ((d :: ds).map (fun x => x.type)) ∧
      acc.function.bind (fun f => f.name)
        = firstTruthyString ((d :: ds).map (fun x => x.function.bind (fun f => f.name))) ∧
      acc.function.bind (fun f => f.arguments) = specMergedArgs (d :: ds) := by
  have hacc := accumTCDeltas_zero d ds h
  rw [hacc]
  refine ⟨rfl, (d :: ds).foldl mergeTC {}, rfl, ?_, ?_, ?_, ?_⟩
  · have := (foldl_mergeTC_fields (d :: ds) {}).1
    simpa using this
  · have := (foldl_mergeTC_fields (d :: ds) {}).2.1
    simpa using this
  · have := (foldl_mergeTC_fields (d :: ds) {}).2.2.1
    simpa using this
  · have h4 := (foldl_mergeTC_fields (d :: ds) {}).2.2.2
    have : (({} : ToolCallAcc).function.bind (fun f => f.arguments)) = none := rfl
    rw [this] at h4
    rw [h4, foldl_argAppend (d :: ds) none, specMergedArgs]
    split <;> simp

/-- C3 witness: the spec's own example, the two fragments
`[ \x7b index: 0, function: \x7b arguments: "\x7b\x22q" \x7d \x7d,
\x7b index: 0, function: \x7b arguments: "uery\x22:\x22x\x22\x7d" \x7d \x7d ]`,
reassembles to the valid JSON text of `\x7b"query":"x"\x7d`, and the
amended theorem instantiates on those fragments. -/
theorem C3_amended_set_once_and_append_witness :
    (∀ x ∈ [({ index := 0, id := some "call_1", type := some "function",
               function := some { name := some "search_uiautomator2_code_snippets",
                                  arguments := some "\x7b\x22q" } } : TCDelta),
            ({ index := 0,
               function := some { arguments := some "uery\x22:\x22x\x22\x7d" } } : TCDelta)],
        x.index = 0) ∧
    ((accumTCDeltas []
        [({ index := 0, id := some "call_1", type := some "function",
            function := some { name := some "search_uiautomator2_code_snippets",
                               arguments := some "\x7b\x22q" } } : TCDelta),
         ({ index := 0,
            function := some { arguments := some "uery\x22:\x22x\x22\x7d" } } : TCDelta)]).1.getD 0 {}).function.bind
        (fun f => f.arguments) = some "\x7b\x22query\x22:\x22x\x22\x7d" ∧
    ((accumTCDeltas []
        [({ index := 0, id := some "call_1", type := some "function",
            function := some { name := some "search_uiautomator2_code_snippets",
                               arguments := some "\x7b\x22q" } } : TCDelta),
         ({ index := 0,
            function := some { arguments := some "uery\x22:\x22x\x22\x7d" } } : TCDelta)]).2 = false ∧
      ∃ acc : ToolCallAcc,
        (accumTCDeltas []
          [({ index := 0, id := some "call_1", type := some "function",
              function := some { name := some "search_uiautomator2_code_snippets",
                                 arguments := some "\x7b\x22q" } } : TCDelta),
           ({ index := 0,
              function := some { arguments := some "uery\x22:\x22x\x22\x7d" } } : TCDelta)]).1 = [acc] ∧
        acc.id = firstTruthyString
          (([({ index := 0, id := some "call_1", type := some "function",
                function := some { name := some "search_uiautomator2_code_snippets",
                                   arguments := some "\x7b\x22q" } } : TCDelta),
             ({ index := 0,
                function := some { arguments := some "uery\x22:\x22x\x22\x7d" } } : TCDelta)]).map
            (fun x => x.id)) ∧
        acc.type = firstTruthyString
          (([({ index := 0, id := some "call_1", type := some "function",
                function := some { name := some "search_uiautomator2_code_snippets",
                                   arguments := some "\x7b\x22q" } } : TCDelta),
             ({ index := 0,
                function := some { arguments := some "uery\x22:\x22x\x22\x7d" } } : TCDelta)]).map
            (fun x => x.type)) ∧
        acc.function.bind (fun f => f.name) = firstTruthyString
          (([({ index := 0, id := some "call_1", type := some "function",
                function := some { name := some "search_uiautomator2_code_snippets",
                                   arguments := some "\x7b\x22q" } } : TCDelta),
             ({ index := 0,
                function := some { arguments := some "uery\x22:\x22x\x22\x7d" } } : TCDelta)]).map
            (fun x => x.function.bind (fun f => f.name))) ∧
        acc.function.bind (fun f => f.arguments) = specMergedArgs
          [({ index := 0, id := some "call_1", type := some "function",
              function := some { name := some "search_uiautomator2_code_snippets",
                                 arguments := some "\x7b\x22q" } } : TCDelta),
           ({ index := 0,
              function := some { arguments := some "uery\x22:\x22x\x22\x7d" } } : TCDelta)]) :=
  ⟨by decide, by rfl,
   C3_amended_set_once_and_append _ _ (by decide)⟩

/-- C10: when a tool-call delta fragment arrives whose positional index
exceeds the current length of the accumulation table (an index gap, or
out-of-order arrival such as index 1 before index 0), the accumulator
appends exactly one empty entry, the indexed access raises `IndexError`,
and the whole chunk is dropped by the malformed-chunk handler: no event
is emitted, the content and finish-reason of the chunk are not
processed, and the state keeps only the appended empty entry. -/
theorem C10_gap_swallows_chunk (st : IterState) (c : ChoiceDelta) (d : TCDelta)
    (ds : List TCDelta) (h1 : c.toolCalls = d :: ds)
    (h2 : (st.tcp.getD []).length < d.index) :
    processChunk st c
      = ({ st with tcp := some ((st.tcp.getD []) ++ [({} : ToolCallAcc)]) }, [], .next) := by
  have hne : c.toolCalls.isEmpty = false := by rw [h1]; rfl
  have hacc : accumTCDeltas (st.tcp.getD []) c.toolCalls
      = ((st.tcp.getD []) ++ [({} : ToolCallAcc)], true) := by
    rw [h1]
    have hle : (st.tcp.getD []).length ≤ d.index := Nat.le_of_lt h2
    have hnotlt : ¬ d.index < ((st.tcp.getD []) ++ [({} : ToolCallAcc)]).length := by
      simp only [List.length_append, List.length_cons, List.length_nil]
      omega
    simp only [accumTCDeltas, if_pos hle, if_neg hnotlt]
  have htc : processChunkToolCalls st c
      = ({ st with tcp := some ((st.tcp.getD []) ++ [({} : ToolCallAcc)]) }, true) := by
    simp only [processChunkToolCalls, hne, Bool.false_eq_true, if_false, hacc]
  simp only [processChunk, htc, if_true]

/-- C10 witness: a chunk carrying a single fragment at index 1 against
an empty table (out-of-order arrival) is dropped whole, leaving one
empty table entry, even though the chunk also carried a content delta
and a stop finish-reason. -/
theorem C10_gap_swallows_chunk_witness :
    (({ toolCalls := [{ index := 1, id := some "x" }], content := some "hello",
        finishReason := some "stop" } : ChoiceDelta).toolCalls
      = [({ index := 1, id := some "x" } : TCDelta)]) ∧
    ((({} : IterState).tcp.getD []).length < ({ index := 1, id := some "x" } : TCDelta).index) ∧
    processChunk {}
        ({ toolCalls := [{ index := 1, id := some "x" }], content := some "hello",
           finishReason := some "stop" } : ChoiceDelta)
      = (({ content := "", tcp := some [({} : ToolCallAcc)] } : IterState), [], .next) :=
  ⟨rfl, by decide,
   C10_gap_swallows_chunk {} _ ({ index := 1, id := some "x" }) [] rfl (by decide)⟩

theorem onlyContentDeltas_append (a b : List Event) :
    onlyContentDeltas (a ++ b) = (onlyContentDeltas a && onlyContentDeltas b) := by
  induction a with
  | nil => simp [onlyContentDeltas]
  | cons e rest ih =>
    cases e <;> simp [onlyContentDeltas, ih]

theorem streamTailOk_append (ds rest : List Event) (h : onlyContentDeltas ds = true) :
    streamTailOk (ds ++ rest) = streamTailOk rest := by
  induction ds with
  | nil => rfl
  | cons e tail ih =>
    cases e with
    | contentDelta s => simp only [List.cons_append, streamTailOk]; exact ih (by simpa [onlyContentDeltas] using h)
    | errorEv m => simp [onlyContentDeltas] at h
    | endOfStream m => simp [onlyContentDeltas] at h

theorem appTailOk_append (ds rest : List Event) (h : onlyContentDeltas ds = true) :
    appTailOk (ds ++ rest) = appTailOk rest := by
  induction ds with
  | nil => rfl
  | cons e tail ih =>
    cases e with
    | contentDelta s => simp only [List.cons_append, appTailOk]; exact ih (by simpa [onlyContentDeltas] using h)
    | errorEv m => simp [onlyContentDeltas] at h
    | endOfStream m => simp [onlyContentDeltas] at h

theorem streamTailOk_deltas_eos (ds : List Event) (m : String)
    (h : onlyContentDeltas ds = true) :
    streamTailOk (ds ++ [Event.endOfStream m]) = true := by
  rw [streamTailOk_append ds _ h]; rfl

theorem streamTailOk_deltas_err_eos (ds : List Event) (m m2 : String)
    (h : onlyContentDeltas ds = true) :
    streamTailOk (ds ++ [Event.errorEv m, Event.endOfStream m2]) = true := by
  rw [streamTailOk_append ds _ h]; rfl

/-- Shape of the finish-reason step: the signal is `next` with the
events unchanged, or `ret` with one end-of-stream appended. -/
theorem processChunkFinish_shape (st : IterState) (evs : List Event) (c : ChoiceDelta) :
    ((processChunkFinish st evs c).2.2 = .next ∧ (processChunkFinish st evs c).2.1 = evs) ∨
    ((processChunkFinish st evs c).2.2 = .ret ∧
      (processChunkFinish st evs c).2.1
        = evs ++ [Event.endOfStream "Stream completed by stop reason"]) := by
  unfold processChunkFinish
  cases c.finishReason with
  | none => exact Or.inl ⟨rfl, rfl⟩
  | some fr => (repeat' split) <;> simp

/-- The content step emits only content deltas. -/
theorem processChunkContent_events (st : IterState) (c : ChoiceDelta) :
    onlyContentDeltas (processChunkContent st c).2 = true := by
  unfold processChunkContent
  cases c.content <;> rfl

/-- The events of one processed chunk: only content deltas when the
signal is `next`; content deltas then one end-of-stream when the chunk
returned. -/
theorem processChunk_events (st : IterState) (c : ChoiceDelta) :
    ((processChunk st c).2.2 = .next → onlyContentDeltas (processChunk st c).2.1 = true) ∧
    ((processChunk st c).2.2 = .ret →
      ∃ ds m, (processChunk st c).2.1 = ds ++ [Event.endOfStream m] ∧
        onlyContentDeltas ds = true) := by
  unfold processChunk
  cases he : (processChunkToolCalls st c).2 with
  | true =>
    simp only [he, if_true]
    exact ⟨fun _ => rfl, fun h => by simp at h⟩
  | false =>
    simp only [he, Bool.false_eq_true, if_false]
    have hcont := processChunkContent_events (processChunkToolCalls st c).1 c
    rcases processChunkFinish_shape (processChunkContent (processChunkToolCalls st c).1 c).1
        (processChunkContent (processChunkToolCalls st c).1 c).2 c with ⟨h1, h2⟩ | ⟨h1, h2⟩
    · refine ⟨fun _ => ?_, fun h => ?_⟩
      · rw [h2]; exact hcont
      · rw [h1] at h; cases h
    · refine ⟨fun h => ?_, fun _ => ?_⟩
      · rw [h1] at h; cases h
      · exact ⟨_, _, h2, hcont⟩

/-- The events of one iteration's line loop: only content deltas while
the loop is still open (`brokeDone`/`exhausted`), content deltas then
exactly one end-of-stream when the generator returned. -/
theorem runLines_events (ls : List SSELine) : ∀ st : IterState,
    ((runLines st ls).2.2 ≠ .finished → onlyContentDeltas (runLines st ls).2.1 = true) ∧
    ((runLines st ls).2.2 = .finished →
      ∃ ds m, (runLines st ls).2.1 = ds ++ [Event.endOfStream m] ∧
        onlyContentDeltas ds = true) := by
  induction ls with
  | nil =>
    intro st
    exact ⟨fun _ => rfl, fun h => by cases h⟩
  | cons l ls ih =>
    intro st
    cases l with
    | blank => exact ih st
    | malformed => exact ih st
    | other => exact ih st
    | done =>
      by_cases ht : truthyTcp st.tcp = true
      · have : runLines st (.done :: ls) = (st, [], .brokeDone) := by
          simp [runLines, ht]
        rw [this]
        exact ⟨fun _ => rfl, fun h => by cases h⟩
      · have ht' : truthyTcp st.tcp = false := by simpa using ht
        have : runLines st (.done :: ls)
            = (st, [Event.endOfStream "Stream completed by [DONE]"], .finished) := by
          simp [runLines, ht']
        rw [this]
        exact ⟨fun h => absurd rfl h, fun _ => ⟨[], _, rfl, rfl⟩⟩
    | chunk c =>
      have hpc := processChunk_events st c
      cases hsig : (processChunk st c).2.2 with
      | ret =>
        have : runLines st (.chunk c :: ls)
            = ((processChunk st c).1, (processChunk st c).2.1, .finished) := by
          simp only [runLines]
          rcases hp : processChunk st c with ⟨st1, evs1, sig1⟩
          rw [hp] at hsig
          simp at hsig
          subst hsig
          rfl
        rw [this]
        refine ⟨fun h => absurd rfl h, fun _ => ?_⟩
        exact hpc.2 hsig
      | next =>
        have hrec := ih (processChunk st c).1
        have heq : runLines st (.chunk c :: ls)
            = ((runLines (processChunk st c).1 ls).1,
               (processChunk st c).2.1 ++ (runLines (processChunk st c).1 ls).2.1,
               (runLines (processChunk st c).1 ls).2.2) := by
          simp only [runLines]
          rcases hp : processChunk st c with ⟨st1, evs1, sig1⟩
          rw [hp] at hsig
          simp at hsig
          subst hsig
          rcases hr : runLines st1 ls with ⟨st2, evs2, out2⟩
          rfl
        rw [heq]
        have hdel : onlyContentDeltas (processChunk st c).2.1 = true := hpc.1 hsig
        refine ⟨fun h => ?_, fun h => ?_⟩
        · rw [onlyContentDeltas_append, hdel, Bool.true_and]
          exact hrec.1 h
        · obtain ⟨ds, m, hds, hod⟩ := hrec.2 h
          refine ⟨(processChunk st c).2.1 ++ ds, m, ?_, ?_⟩
          · rw [hds, List.append_assoc]
          · rw [onlyContentDeltas_append, hdel, Bool.true_and]
            exact hod

/-- Every event list produced by the iteration loop satisfies the
ordering invariant: an error is immediately followed by exactly one
end-of-stream, and nothing follows an end-of-stream. -/
theorem runIterationsFrom_tailOk (provider : Nat → ProviderResponse)
    (p : String → Except String String) (f : String → String) :
    ∀ (rem calls : Nat) (msgs : List Message),
      streamTailOk (runIterationsFrom provider p f rem calls msgs).1 = true := by
  intro rem
  induction rem with
  | zero => intro calls msgs; rfl
  | succ r ih =>
    intro calls msgs
    by_cases hs : (provider calls).status = 200
    · have hs' : ¬ (provider calls).status ≠ 200 := by simpa using hs
      rcases hr : runLines {} (provider calls).lines with ⟨st, evs, out⟩
      have hev := runLines_events (provider calls).lines ({} : IterState)
      rw [hr] at hev
      cases out with
      | finished =>
        have : runIterationsFrom provider p f (r + 1) calls msgs = (evs, calls + 1, msgs) := by
          simp only [runIterationsFrom, if_neg hs', hr]
        rw [this]
        obtain ⟨ds, m, hds, hod⟩ := hev.2 rfl
        rw [hds]
        exact streamTailOk_deltas_eos ds m hod
      | brokeDone =>
        have hod : onlyContentDeltas evs = true := hev.1 (by simp)
        by_cases ht : truthyTcp st.tcp = true
        · have : runIterationsFrom provider p f (r + 1) calls msgs
              = (evs ++ (runIterationsFrom provider p f r (calls + 1)
                  (msgs ++ assistantToolCallMessage st ::
                    (st.tcp.getD []).map (toolResponseMessage p f))).1,
                 (runIterationsFrom provider p f r (calls + 1)
                  (msgs ++ assistantToolCallMessage st ::
                    (st.tcp.getD []).map (toolResponseMessage p f))).2) := by
            simp only [runIterationsFrom, if_neg hs', hr, ht, if_true]
          rw [this]
          simp only []
          rw [streamTailOk_append evs _ hod]
          exact ih (calls + 1) _
        · have ht' : truthyTcp st.tcp = false := by simpa using ht
          have : runIterationsFrom provider p f (r + 1) calls msgs
              = (evs ++ [Event.endOfStream "Stream ended after processing."], calls + 1, msgs) := by
            simp only [runIterationsFrom, if_neg hs', hr, ht', Bool.false_eq_true, if_false]
          rw [this]
          exact streamTailOk_deltas_eos evs _ hod
      | exhausted =>
        have hod : onlyContentDeltas evs = true := hev.1 (by simp)
        cases hn : (provider calls).netErr with
        | some failure =>
          cases failure with
          | request m =>
            have : runIterationsFrom provider p f (r + 1) calls msgs
                = (evs ++ [Event.errorEv ("Network error: " ++ m),
                    Event.endOfStream "Stream ended due to network error."], calls + 1, msgs) := by
              simp only [runIterationsFrom, if_neg hs', hr, hn]
            rw [this]
            exact streamTailOk_deltas_err_eos evs _ _ hod
          | unexpected m =>
            have : runIterationsFrom provider p f (r + 1) calls msgs
                = (evs ++ [Event.errorEv ("Unexpected error: " ++ m),
                    Event.endOfStream "Stream ended due to server error."], calls + 1, msgs) := by
              simp only [runIterationsFrom, if_neg hs', hr, hn]
            rw [this]
            exact streamTailOk_deltas_err_eos evs _ _ hod
        | none =>
          by_cases ht : truthyTcp st.tcp = true
          · have : runIterationsFrom provider p f (r + 1) calls msgs
                = (evs ++ (runIterationsFrom provider p f r (calls + 1)
                    (msgs ++ assistantToolCallMessage st ::
                      (st.tcp.getD []).map (toolResponseMessage p f))).1,
                   (runIterationsFrom provider p f r (calls + 1)
                    (msgs ++ assistantToolCallMessage st ::
                      (st.tcp.getD []).map (toolResponseMessage p f))).2) := by
              simp only [runIterationsFrom, if_neg hs', hr, hn, ht, if_true]
            rw [this]
            simp only []
            rw [streamTailOk_append evs _ hod]
            exact ih (calls + 1) _
          · have ht' : truthyTcp st.tcp = false := by simpa using ht
            have : runIterationsFrom provider p f (r + 1) calls msgs
                = (evs ++ [Event.endOfStream "Stream ended after processing."], calls + 1, msgs) := by
              simp only [runIterationsFrom, if_neg hs', hr, hn, ht', Bool.false_eq_true, if_false]
            rw [this]
            exact streamTailOk_deltas_eos evs _ hod
    · have : runIterationsFrom provider p f (r + 1) calls msgs
          = ([Event.errorEv ("LLM API Error (" ++ toString (provider calls).status ++ ")"),
              Event.endOfStream "Stream ended due to API error"], calls + 1, msgs) := by
        simp only [runIterationsFrom, if_pos hs]
      rw [this]
      rfl

/-- The app-level line loop emits only content deltas until the
done-sentinel, and exactly one end-of-stream when the sentinel is
seen. -/
theorem appRunLines_events (ls : List SSELine) :
    ((appRunLines ls).2 = false → onlyContentDeltas (appRunLines ls).1 = true) ∧
    ((appRunLines ls).2 = true →
      ∃ ds m, (appRunLines ls).1 = ds ++ [Event.endOfStream m] ∧
        onlyContentDeltas ds = true) := by
  induction ls with
  | nil => exact ⟨fun _ => rfl, fun h => by cases h⟩
  | cons l ls ih =>
    cases l with
    | blank => exact ih
    | malformed => exact ih
    | other => exact ih
    | done =>
      constructor
      · intro h
        exfalso
        simp [appRunLines] at h
      · intro _
        exact ⟨[], "", rfl, rfl⟩
    | chunk c =>
      cases hc : c.content with
      | none =>
        have : appRunLines (.chunk c :: ls) = appRunLines ls := by
          simp only [appRunLines, hc]
        rw [this]; exact ih
      | some s =>
        have : appRunLines (.chunk c :: ls)
            = (Event.contentDelta s :: (appRunLines ls).1, (appRunLines ls).2) := by
          simp only [appRunLines, hc]
        rw [this]
        refine ⟨fun h => ?_, fun h => ?_⟩
        · have := ih.1 h
          simpa [onlyContentDeltas] using this
        · obtain ⟨ds, m, hds, hod⟩ := ih.2 h
          refine ⟨Event.contentDelta s :: ds, m, ?_, ?_⟩
          · simp [hds]
          · simpa [onlyContentDeltas] using hod

theorem appTailOk_of_onlyContentDeltas (ds : List Event) (h : onlyContentDeltas ds = true) :
    appTailOk ds = true := by
  induction ds with
  | nil => rfl
  | cons e tail ih =>
    cases e with
    | contentDelta s =>
      simp only [appTailOk]
      exact ih (by simpa [onlyContentDeltas] using h)
    | errorEv m => simp [onlyContentDeltas] at h
    | endOfStream m => simp [onlyContentDeltas] at h

/-- The app-level generator never emits an event after an `error` or
after an `end_of_stream` (but, unlike the service generator, its error
events are terminal without an end-of-stream marker). -/
theorem stream_deepseek_response_tailOk (apiKey : Option String)
    (resp : AppProviderResponse) :
    appTailOk (stream_deepseek_response apiKey resp) = true := by
  unfold stream_deepseek_response
  by_cases hk : optTruthy apiKey = true
  · simp only [hk, Bool.not_true, Bool.false_eq_true, if_false]
    by_cases hs : resp.status ≠ 200
    · rw [if_pos hs]; rfl
    · rw [if_neg hs]
      have hev := appRunLines_events resp.lines
      cases hd : (appRunLines resp.lines).2 with
      | true =>
        simp only [hd, if_true]
        obtain ⟨ds, m, hds, hod⟩ := hev.2 hd
        rw [hds, appTailOk_append ds _ hod]
        rfl
      | false =>
        simp only [hd, Bool.false_eq_true, if_false]
        have hod := hev.1 hd
        cases hf : resp.failure with
        | none =>
          show appTailOk ((appRunLines resp.lines).1) = true
          exact appTailOk_of_onlyContentDeltas _ hod
        | some failure =>
          cases failure with
          | httpStatusErr s t =>
            show appTailOk ((appRunLines resp.lines).1
              ++ [Event.errorEv ("LLM API HTTP Error (" ++ toString s ++ "): " ++ t)]) = true
            rw [appTailOk_append _ _ hod]; rfl
          | requestErr m =>
            show appTailOk ((appRunLines resp.lines).1
              ++ [Event.errorEv ("Network issue contacting LLM: " ++ m)]) = true
            rw [appTailOk_append _ _ hod]; rfl
          | unexpectedErr m =>
            show appTailOk ((appRunLines resp.lines).1
              ++ [Event.errorEv ("An unexpected error occurred with the LLM service: " ++ m)]) = true
            rw [appTailOk_append _ _ hod]; rfl
  · have hk' : optTruthy apiKey = false := by simpa using hk
    simp only [hk', Bool.not_false, if_true]
    rfl

/-- C1, counterexample. The claim quantifies over "the chat stream
generators" and asserts every error event is eventually followed by a
terminal end-of-stream. In `stream_deepseek_response` (app.py), a
network failure mid-stream yields a single error event and the
generator simply returns: the event list is exactly `[error]`, with no
end-of-stream anywhere in it. -/
theorem C1_counterexample_app_error_without_eos :
    stream_deepseek_response (some "k")
        { status := 200, body := "", lines := [], failure := some (.requestErr "reset") }
      = [Event.errorEv "Network issue contacting LLM: reset"]
    ∧ containsEndOfStream
        (stream_deepseek_response (some "k")
          { status := 200, body := "", lines := [], failure := some (.requestErr "reset") })
      = false := by
  exact ⟨rfl, rfl⟩

/-- C1, amended: in the service generator
(`generate_chat_completion_stream`, llm_service.py) every error event
is immediately followed by exactly one end-of-stream event and no event
of any kind follows an end-of-stream; in the app generator
(`stream_deepseek_response`, app.py) nothing follows an error or an
end-of-stream either, but error events there are terminal WITHOUT an
end-of-stream marker. -/
theorem C1_amended_error_then_terminal_eos :
    (∀ (apiKey : Option String) (initialMessages : List Message)
        (provider : Nat → ProviderResponse) (p : String → Except String String)
        (f : String → String),
      streamTailOk
        (generate_chat_completion_stream apiKey initialMessages provider p f).1 = true) ∧
    (∀ (apiKey : Option String) (resp : AppProviderResponse),
      appTailOk (stream_deepseek_response apiKey resp) = true) := by
  constructor
  · intro apiKey initialMessages provider p f
    unfold generate_chat_completion_stream
    by_cases hk : optTruthy apiKey = true
    · simp only [hk, Bool.not_true, Bool.false_eq_true, if_false]
      exact runIterationsFrom_tailOk provider p f 3 0 initialMessages
    · have hk' : optTruthy apiKey = false := by simpa using hk
      simp only [hk', Bool.not_false, if_true]
      rfl
  · exact stream_deepseek_response_tailOk

theorem requestsTools_spec (r : ProviderResponse) (h : requestsTools r = true) :
    r.status = 200 ∧ r.netErr = none ∧ (runLines {} r.lines).2.2 ≠ .finished ∧
      truthyTcp (runLines {} r.lines).1.tcp = true := by
  unfold requestsTools at h
  simp only [Bool.and_eq_true, beq_iff_eq, Option.isNone_iff_eq_none] at h
  obtain ⟨⟨⟨h1, h2⟩, h3⟩, h4⟩ := h
  refine ⟨h1, h2, ?_, h4⟩
  intro hf
  rw [hf] at h3
  simp at h3

theorem roundEvents_onlyDeltas (r : ProviderResponse) (h : requestsTools r = true) :
    onlyContentDeltas (roundEvents r) = true :=
  (runLines_events r.lines {}).1 (requestsTools_spec r h).2.2.1

/-- One tool-requesting iteration unfolds to its pass-through events
followed by the next iteration on the extended history. -/
theorem toolRound_eq (provider : Nat → ProviderResponse)
    (p : String → Except String String) (f : String → String)
    (rem calls : Nat) (msgs : List Message)
    (h : requestsTools (provider calls) = true) :
    runIterationsFrom provider p f (rem + 1) calls msgs
      = (roundEvents (provider calls)
          ++ (runIterationsFrom provider p f rem (calls + 1)
                (roundNewMessages p f msgs (provider calls))).1,
         (runIterationsFrom provider p f rem (calls + 1)
                (roundNewMessages p f msgs (provider calls))).2) := by
  obtain ⟨h1, h2, h3, h4⟩ := requestsTools_spec (provider calls) h
  have hs' : ¬ (provider calls).status ≠ 200 := by simp [h1]
  rcases hr : runLines {} (provider calls).lines with ⟨st, evs, out⟩
  rw [hr] at h3 h4
  have hre : roundEvents (provider calls) = evs := by
    unfold roundEvents; rw [hr]
  have hrs : roundState (provider calls) = st := by
    unfold roundState; rw [hr]
  have hrm : roundNewMessages p f msgs (provider calls)
      = msgs ++ assistantToolCallMessage st ::
          (st.tcp.getD []).map (toolResponseMessage p f) := by
    unfold roundNewMessages roundToolCalls
    rw [hrs]
  cases out with
  | finished => exact absurd rfl h3
  | brokeDone =>
    simp only [runIterationsFrom, if_neg hs', hr, h4, if_true, hre, hrm]
  | exhausted =>
    simp only [runIterationsFrom, if_neg hs', hr, h2, h4, if_true, hre, hrm]

theorem toolResponseMessage_role (p : String → Except String String)
    (f : String → String) (tc : ToolCallAcc) :
    (toolResponseMessage p f tc).role = "tool" := by
  unfold toolResponseMessage
  by_cases h : (tc.function.bind fun x => x.name) = some "search_uiautomator2_code_snippets" <;>
    simp [h]

theorem toolResponseMessage_tool_call_id (p : String → Except String String)
    (f : String → String) (tc : ToolCallAcc) :
    (toolResponseMessage p f tc).tool_call_id = tc.id := by
  unfold toolResponseMessage
  by_cases h : (tc.function.bind fun x => x.name) = some "search_uiautomator2_code_snippets" <;>
    simp [h]

theorem map_toolResponseMessage_roles (p : String → Except String String)
    (f : String → String) (tcs : List ToolCallAcc) :
    (tcs.map (toolResponseMessage p f)).map (fun m => m.role)
      = tcs.map (fun _ => "tool") := by
  induction tcs with
  | nil => rfl
  | cons tc rest ih =>
    simp only [List.map_cons, toolResponseMessage_role, ih]

theorem map_toolResponseMessage_ids (p : String → Except String String)
    (f : String → String) (tcs : List ToolCallAcc) :
    (tcs.map (toolResponseMessage p f)).map (fun m => m.tool_call_id)
      = tcs.map (fun tc => tc.id) := by
  induction tcs with
  | nil => rfl
  | cons tc rest ih =>
    simp only [List.map_cons, toolResponseMessage_tool_call_id, ih]

/-- C2: with a configured API key and a mocked model that requests tool
calls on every iteration, the controller issues exactly
`max_iterations = 3` upstream calls, never more, and the emitted stream
is the pass-through content deltas followed by exactly one error event
describing loop-limit exhaustion and one end-of-stream event. -/
theorem C2_loop_limit_exactly_three_calls (provider : Nat → ProviderResponse)
    (p : String → Except String String) (f : String → String)
    (key : Option String) (msgs : List Message)
    (hk : optTruthy key = true)
    (h0 : requestsTools (provider 0) = true)
    (h1 : requestsTools (provider 1) = true)
    (h2 : requestsTools (provider 2) = true) :
    (generate_chat_completion_stream key msgs provider p f).2.1 = 3 ∧
    ∃ ds, onlyContentDeltas ds = true ∧
      (generate_chat_completion_stream key msgs provider p f).1
        = ds ++ [Event.errorEv "Processing loop exceeded max iterations.",
                 Event.endOfStream "Stream ended due to max iterations."] := by
  have hgen : generate_chat_completion_stream key msgs provider p f
      = runIterationsFrom provider p f 3 0 msgs := by
    unfold generate_chat_completion_stream
    simp [hk]
  have e1 : runIterationsFrom provider p f 3 0 msgs
      = (roundEvents (provider 0)
          ++ (runIterationsFrom provider p f 2 1
                (roundNewMessages p f msgs (provider 0))).1,
         (runIterationsFrom provider p f 2 1
                (roundNewMessages p f msgs (provider 0))).2) :=
    toolRound_eq provider p f 2 0 msgs h0
  have e2 : runIterationsFrom provider p f 2 1 (roundNewMessages p f msgs (provider 0))
      = (roundEvents (provider 1)
          ++ (runIterationsFrom provider p f 1 2
                (roundNewMessages p f (roundNewMessages p f msgs (provider 0)) (provider 1))).1,
         (runIterationsFrom provider p f 1 2
                (roundNewMessages p f (roundNewMessages p f msgs (provider 0)) (provider 1))).2) :=
    toolRound_eq provider p f 1 1 _ h1
  have e3 : runIterationsFrom provider p f 1 2
        (roundNewMessages p f (roundNewMessages p f msgs (provider 0)) (provider 1))
      = (roundEvents (provider 2)
          ++ (runIterationsFrom provider p f 0 3
                (roundNewMessages p f
                  (roundNewMessages p f (roundNewMessages p f msgs (provider 0)) (provider 1))
                  (provider 2))).1,
         (runIterationsFrom provider p f 0 3
                (roundNewMessages p f
                  (roundNewMessages p f (roundNewMessages p f msgs (provider 0)) (provider 1))
                  (provider 2))).2) :=
    toolRound_eq provider p f 0 2 _ h2
  have e4 : ∀ ms : List Message, runIterationsFrom provider p f 0 3 ms
      = ([Event.errorEv "Processing loop exceeded max iterations.",
          Event.endOfStream "Stream ended due to max iterations."], 3, ms) :=
    fun ms => rfl
  rw [hgen, e1, e2, e3, e4]
  constructor
  · rfl
  · refine ⟨roundEvents (provider 0) ++ roundEvents (provider 1) ++ roundEvents (provider 2),
      ?_, ?_⟩
    · rw [onlyContentDeltas_append, onlyContentDeltas_append]
      rw [roundEvents_onlyDeltas (provider 0) h0, roundEvents_onlyDeltas (provider 1) h1,
          roundEvents_onlyDeltas (provider 2) h2]
      rfl
    · simp [List.append_assoc]

/-- C2 witness: a provider that answers every call with the same
tool-requesting response makes exactly three upstream calls and ends
with the loop-limit error and end-of-stream pair. -/
theorem C2_loop_limit_exactly_three_calls_witness :
    (optTruthy (some "k") = true ∧
     requestsTools ((fun _ => sampleToolResponse) (0 : Nat)) = true ∧
     requestsTools ((fun _ => sampleToolResponse) (1 : Nat)) = true ∧
     requestsTools ((fun _ => sampleToolResponse) (2 : Nat)) = true) ∧
    ((generate_chat_completion_stream (some "k") [] (fun _ => sampleToolResponse)
        sampleParse sampleFetch).2.1 = 3 ∧
     ∃ ds, onlyContentDeltas ds = true ∧
       (generate_chat_completion_stream (some "k") [] (fun _ => sampleToolResponse)
          sampleParse sampleFetch).1
         = ds ++ [Event.errorEv "Processing loop exceeded max iterations.",
                  Event.endOfStream "Stream ended due to max iterations."]) :=
  ⟨⟨rfl, by decide, by decide, by decide⟩,
   C2_loop_limit_exactly_three_calls _ _ _ _ _ rfl (by decide) (by decide) (by decide)⟩

/-- C4: in every tool round (a 200 response whose line loop ends with a
non-empty accumulated tool-call list), the controller appends to the
history exactly one assistant turn — content equal to the partial text
emitted before the tool call or null, carrying the full tool-call
list — followed by exactly one tool turn per requested call, tagged
with its originating `tool_call_id`, in the order the model requested
them (a sequential map, no reordering), and then continues with the
next upstream call on that extended history. -/
theorem C4_tool_round_appends_in_order (provider : Nat → ProviderResponse)
    (p : String → Except String String) (f : String → String)
    (rem calls : Nat) (msgs : List Message) (st : IterState) (evs : List Event)
    (out : LineOutcome) (tcs : List ToolCallAcc)
    (hr : runLines {} (provider calls).lines = (st, evs, out))
    (hs : (provider calls).status = 200)
    (hn : (provider calls).netErr = none)
    (ho : out ≠ .finished)
    (ht : st.tcp = some tcs)
    (hne : tcs ≠ []) :
    runIterationsFrom provider p f (rem + 1) calls msgs
      = (evs ++ (runIterationsFrom provider p f rem (calls + 1)
            (msgs ++ assistantToolCallMessage st :: tcs.map (toolResponseMessage p f))).1,
         (runIterationsFrom provider p f rem (calls + 1)
            (msgs ++ assistantToolCallMessage st :: tcs.map (toolResponseMessage p f))).2) ∧
    (assistantToolCallMessage st).role = "assistant" ∧
    (assistantToolCallMessage st).content
      = (if st.content = "" then none else some st.content) ∧
    (assistantToolCallMessage st).tool_calls = some tcs ∧
    (tcs.map (toolResponseMessage p f)).map (fun m => m.role) = tcs.map (fun _ => "tool") ∧
    (tcs.map (toolResponseMessage p f)).map (fun m => m.tool_call_id)
      = tcs.map (fun tc => tc.id) := by
  have htt : truthyTcp st.tcp = true := by
    rw [ht]
    cases tcs with
    | nil => exact absurd rfl hne
    | cons a l => rfl
  have hget : st.tcp.getD [] = tcs := by rw [ht]; rfl
  have hs' : ¬ (provider calls).status ≠ 200 := by simp [hs]
  refine ⟨?_, rfl, ?_, ?_, map_toolResponseMessage_roles p f tcs,
    map_toolResponseMessage_ids p f tcs⟩
  · cases out with
    | finished => exact absurd rfl ho
    | brokeDone =>
      simp only [runIterationsFrom, if_neg hs', hr, htt, if_true, hget]
    | exhausted =>
      simp only [runIterationsFrom, if_neg hs', hr, hn, htt, if_true, hget]
  · rfl
  · unfold assistantToolCallMessage
    rw [hget]

/-- C4 witness: the spec test scenario — a mocked model that requests
the retrieval tool once and then stops — appends exactly one assistant
turn and one tool turn tagged `call_1`, and the whole exchange makes
exactly 2 upstream calls; the instantiated round-unfolding and ordering
facts follow from the theorem. -/
theorem C4_tool_round_appends_in_order_witness :
    (runLines {} (sampleProvider 0).lines = (sampleIterState, [], .brokeDone) ∧
     (sampleProvider 0).status = 200 ∧ (sampleProvider 0).netErr = none ∧
     sampleIterState.tcp = some [sampleToolAcc] ∧
     ([sampleToolAcc] : List ToolCallAcc) ≠ []) ∧
    (runIterationsFrom sampleProvider sampleParse sampleFetch 3 0 []).2
      = (2, [assistantToolCallMessage sampleIterState,
             toolResponseMessage sampleParse sampleFetch sampleToolAcc]) ∧
    (runIterationsFrom sampleProvider sampleParse sampleFetch 3 0 []
      = ([] ++ (runIterationsFrom sampleProvider sampleParse sampleFetch 2 1
            ([] ++ assistantToolCallMessage sampleIterState ::
              ([sampleToolAcc].map (toolResponseMessage sampleParse sampleFetch)))).1,
         (runIterationsFrom sampleProvider sampleParse sampleFetch 2 1
            ([] ++ assistantToolCallMessage sampleIterState ::
              ([sampleToolAcc].map (toolResponseMessage sampleParse sampleFetch)))).2) ∧
     (assistantToolCallMessage sampleIterState).role = "assistant" ∧
     (assistantToolCallMessage sampleIterState).content
       = (if sampleIterState.content = "" then none else some sampleIterState.content) ∧
     (assistantToolCallMessage sampleIterState).tool_calls = some [sampleToolAcc] ∧
     ([sampleToolAcc].map (toolResponseMessage sampleParse sampleFetch)).map (fun m => m.role)
       = [sampleToolAcc].map (fun _ => "tool") ∧
     ([sampleToolAcc].map (toolResponseMessage sampleParse sampleFetch)).map
         (fun m => m.tool_call_id)
       = [sampleToolAcc].map (fun tc => tc.id)) :=
  ⟨⟨by decide, rfl, rfl, rfl, by decide⟩, by decide,
   C4_tool_round_appends_in_order sampleProvider sampleParse sampleFetch 2 0 []
     sampleIterState [] .brokeDone [sampleToolAcc]
     (by decide) rfl rfl (by decide) rfl (by decide)⟩

theorem exceptOk_bind {ε α β : Type} (x : Except ε α) (f : α → Except ε β)
    (hx : exceptOk x = true) (hf : ∀ a, exceptOk (f a) = true) :
    exceptOk (x >>= f) = true := by
  cases x with
  | ok a => rw [exbind_ok]; exact hf a
  | error e => exact absurd hx (by simp [exceptOk])

theorem exists_ok_of_exceptOk {ε α : Type} (x : Except ε α) (h : exceptOk x = true) :
    ∃ a, x = .ok a := by
  cases x with
  | ok a => exact ⟨a, rfl⟩
  | error e => exact absurd h (by simp [exceptOk])

theorem ragSection_ok (v : JValue) (h : shapeOkStr v = true) :
    exceptOk (ragSection v) = true := by
  cases v with
  | str s =>
    unfold ragSection
    split
    · simp only [pyNotIn, exbind_ok]
      split
      · split
        · rfl
        · rfl
      · rfl
    · rfl
  | null => rfl
  | bool b =>
    cases b with
    | false => rfl
    | true => exact absurd h (by decide)
  | num n =>
    unfold ragSection
    split
    · rename_i ht
      simp [shapeOkStr, truthy, JValue.isStr] at h
      simp [truthy, h] at ht
    · rfl
  | arr xs =>
    unfold ragSection
    split
    · rename_i ht
      simp [shapeOkStr, truthy, JValue.isStr] at h
      simp [truthy, h] at ht
    · rfl
  | obj fields =>
    unfold ragSection
    split
    · rename_i ht
      simp [shapeOkStr, truthy, JValue.isStr] at h
      simp [truthy, h] at ht
    · rfl

theorem criticalSection_ok (v : JValue) (h : shapeOkStr v = true) :
    exceptOk (criticalSection v) = true := by
  cases v with
  | str s =>
    unfold criticalSection
    split
    · simp only [pyLen, exbind_ok]
      refine exceptOk_bind _ _ ?_ (fun contentVal => rfl)
      unfold criticalContent
      split
      · simp only [pySliceTo, pySliceLast, exbind_ok]
        rfl
      · rfl
    · rfl
  | null => rfl
  | bool b =>
    cases b with
    | false => rfl
    | true => exact absurd h (by decide)
  | num n =>
    unfold criticalSection
    split
    · rename_i ht
      simp [shapeOkStr, truthy, JValue.isStr] at h
      simp [truthy, h] at ht
    · rfl
  | arr xs =>
    unfold criticalSection
    split
    · rename_i ht
      simp [shapeOkStr, truthy, JValue.isStr] at h
      simp [truthy, h] at ht
    · rfl
  | obj fields =>
    unfold criticalSection
    split
    · rename_i ht
      simp [shapeOkStr, truthy, JValue.isStr] at h
      simp [truthy, h] at ht
    · rfl

theorem elementDetail_ok (i : Nat) (e : JValue)
    (h : (match e with
          | .obj fields =>
            match objGet fields "properties" with
            | none => true
            | some (.obj _) => true
            | some _ => false
          | _ => true) = true) :
    exceptOk (elementDetail i e) = true := by
  cases e with
  | obj fields =>
    replace h : (match objGet fields "properties" with
        | none => true
        | some (.obj _) => true
        | some _ => false) = true := h
    unfold elementDetail
    cases hp : objGet fields "properties" with
    | none =>
      simp only [hp, Option.getD]
      rfl
    | some p =>
      cases p with
      | obj pf =>
        simp only [hp, Option.getD]
        rfl
      | null => rw [hp] at h; exact absurd h (by simp)
      | bool b => rw [hp] at h; exact absurd h (by simp)
      | num n => rw [hp] at h; exact absurd h (by simp)
      | str s => rw [hp] at h; exact absurd h (by simp)
      | arr xs => rw [hp] at h; exact absurd h (by simp)
  | null => rfl
  | bool b => rfl
  | num n => rfl
  | str s => rfl
  | arr xs => rfl

theorem collectDetails_ok (elems : List JValue) : ∀ i : Nat,
    (elems.all (fun e =>
      match e with
      | .obj fields =>
        match objGet fields "properties" with
        | none => true
        | some (.obj _) => true
        | some _ => false
      | _ => true) = true) →
    exceptOk (collectDetails i elems) = true := by
  induction elems with
  | nil => intro i _; rfl
  | cons e es ih =>
    intro i h
    simp only [List.all_cons, Bool.and_eq_true] at h
    obtain ⟨he, hes⟩ := h
    unfold collectDetails
    exact exceptOk_bind _ _ (elementDetail_ok i e he)
      (fun d => exceptOk_bind _ _ (ih (i + 1) hes) (fun rest => rfl))

theorem selectedSection_ok (v : JValue) (h : shapeOkSel v = true) :
    exceptOk (selectedSection v) = true := by
  cases v with
  | arr elems =>
    cases elems with
    | nil => rfl
    | cons e es =>
      replace h : ((e :: es).all (fun e =>
          match e with
          | .obj fields =>
            match objGet fields "properties" with
            | none => true
            | some (.obj _) => true
            | some _ => false
          | _ => true)) = true := h
      show exceptOk (do
        let details ← collectDetails 0 (e :: es)
        if details.isEmpty then pure []
        else pure ["### Selected UI Elements (" ++ toString details.length ++ "):\n" ++
          String.intercalate "\n\n" details] : Except String (List String)) = true
      refine exceptOk_bind _ _ (collectDetails_ok (e :: es) 0 h) (fun details => ?_)
      split
      · rfl
      · rfl
  | null => rfl
  | bool b => rfl
  | num n => rfl
  | str s => rfl
  | obj fields => rfl

theorem hierSection_ok (v : JValue) (h : shapeOkHier v = true) :
    exceptOk (hierSection v) = true := by
  unfold hierSection
  split
  · rename_i ht
    unfold shapeOkHier at h
    rw [if_pos ht] at h
    cases v with
    | obj fields =>
      replace h : (match objGet fields "children" with
          | none => true
          | some c => c.isArr) = true := h
      cases hc : objGet fields "children" with
      | none =>
        simp only [hc, Option.getD, pyLen, exbind_ok]
        rfl
      | some c =>
        rw [hc] at h
        cases c with
        | arr xs =>
          simp only [hc, Option.getD, pyLen, exbind_ok]
          rfl
        | null => exact absurd h (by simp [JValue.isArr])
        | bool b => exact absurd h (by simp [JValue.isArr])
        | num n => exact absurd h (by simp [JValue.isArr])
        | str s => exact absurd h (by simp [JValue.isArr])
        | obj f2 => exact absurd h (by simp [JValue.isArr])
    | null => simp [truthy] at ht
    | bool b => simp at h
    | num n => simp at h
    | str s => simp at h
    | arr xs => simp at h
  · rfl

theorem consoleSection_ok (u g : JValue) (hu : shapeOkStr u = true)
    (hg : shapeOkStr g = true) :
    exceptOk (consoleSection u g) = true := by
  unfold consoleSection
  split
  · rename_i htg
    have hgs : ∃ s, g = .str s := by
      cases g with
      | str s => exact ⟨s, rfl⟩
      | null => simp [truthy] at htg
      | bool b => cases b with
        | false => simp [truthy] at htg
        | true => exact absurd hg (by decide)
      | num n =>
        simp [shapeOkStr, truthy, JValue.isStr] at hg
        simp [truthy, hg] at htg
      | arr xs =>
        simp [shapeOkStr, truthy, JValue.isStr] at hg
        simp [truthy, hg] at htg
      | obj f2 =>
        simp [shapeOkStr, truthy, JValue.isStr] at hg
        simp [truthy, hg] at htg
    obtain ⟨sg, rfl⟩ := hgs
    refine exceptOk_bind _ _ ?_ (fun isRed => ?_)
    · unfold consoleRedundant
      split
      · rename_i htu
        have hus : ∃ s, u = .str s := by
          cases u with
          | str s => exact ⟨s, rfl⟩
          | null => simp [truthy] at htu
          | bool b => cases b with
            | false => simp [truthy] at htu
            | true => exact absurd hu (by decide)
          | num n =>
            simp [shapeOkStr, truthy, JValue.isStr] at hu
            simp [truthy, hu] at htu
          | arr xs =>
            simp [shapeOkStr, truthy, JValue.isStr] at hu
            simp [truthy, hu] at htu
          | obj f2 =>
            simp [shapeOkStr, truthy, JValue.isStr] at hu
            simp [truthy, hu] at htu
        obtain ⟨su, rfl⟩ := hus
        split
        · rfl
        · rfl
      · rfl
    · split
      · rfl
      · simp only [pySliceLast, exbind_ok]
        rfl
  · rfl

/-- Under well-shaped context values, every section computation of the
prompt assembler returns normally. -/
theorem buildSections_ok (ctx : List (String × JValue)) (h : WellShapedCtx ctx = true) :
    exceptOk (buildSections ctx) = true := by
  unfold WellShapedCtx at h
  simp only [Bool.and_eq_true] at h
  obtain ⟨⟨⟨⟨h1, h2⟩, h3⟩, h4⟩, h5⟩ := h
  unfold buildSections
  refine exceptOk_bind _ _ (ragSection_ok _ h1) (fun s1 => ?_)
  refine exceptOk_bind _ _ (criticalSection_ok _ h2) (fun s2 => ?_)
  refine exceptOk_bind _ _ (selectedSection_ok _ h5) (fun t1 => ?_)
  refine exceptOk_bind _ _ (hierSection_ok _ h4) (fun t2 => ?_)
  refine exceptOk_bind _ _ (consoleSection_ok _ _ h2 h3) (fun t3 => ?_)
  rfl

/-- C5, counterexample. The claim asserts the assembler never raises
for arbitrary context values; with `uiHierarchy` bound to the number 5
(truthy, not a dict), the source executes `cd_hier.get("name", "N/A")`
on an int and raises `AttributeError`, aborting instead of returning. -/
theorem C5_counterexample_raises_on_int_hierarchy :
    exceptOk (build_llm_payload_messages "hi" [("uiHierarchy", JValue.num 5)] [] none)
      = false := by
  rfl

/-- C5, amended: the prompt assembler returns normally for every
prompt, history and override, and every context whose present
recognised keys are well-shaped (strings for `rag_code_snippets`,
`pythonLastErrorTraceback` and `pythonConsoleOutput`; an object whose
`children`, when present, is an array for `uiHierarchy`; object entries
of `selectedElements` carrying object `properties`); missing keys
merely cause the corresponding sections to be omitted. -/
theorem C5_amended_total_on_well_shaped_context (p : String)
    (ctx : List (String × JValue)) (hist : List Message) (ov : Option String)
    (h : WellShapedCtx ctx = true) :
    ∃ ms, build_llm_payload_messages p ctx hist ov = .ok ms := by
  refine exists_ok_of_exceptOk _ ?_
  unfold build_llm_payload_messages
  exact exceptOk_bind _ _ (buildSections_ok ctx h) (fun secs => rfl)

/-- C5 witness: a concrete well-shaped context exercising every
recognised key. -/
theorem C5_amended_total_on_well_shaped_context_witness :
    WellShapedCtx
        [("uiHierarchy", JValue.obj [("name", JValue.str "root"),
           ("children", JValue.arr [JValue.null])]),
         ("pythonCode", JValue.str "x = 1"),
         ("pythonConsoleOutput", JValue.str "ok"),
         ("selectedElements", JValue.arr [JValue.obj [("name", JValue.str "btn"),
           ("properties", JValue.obj [("text", JValue.str "OK")])]])] = true ∧
    ∃ ms, build_llm_payload_messages "click ok"
        [("uiHierarchy", JValue.obj [("name", JValue.str "root"),
           ("children", JValue.arr [JValue.null])]),
         ("pythonCode", JValue.str "x = 1"),
         ("pythonConsoleOutput", JValue.str "ok"),
         ("selectedElements", JValue.arr [JValue.obj [("name", JValue.str "btn"),
           ("properties", JValue.obj [("text", JValue.str "OK")])]])] [] none = .ok ms :=
  ⟨by decide,
   C5_amended_total_on_well_shaped_context "click ok" _ [] none (by decide)⟩

/-- C6, counterexample. The claim says the single system message holds
"the fixed instruction text, or the override if given". The override
`""` IS given yet ignored: Python `system_prompt_override or (...)`
treats the empty string as falsy, so the system content is the fixed
text, not the given override. -/
theorem C6_counterexample_empty_override_ignored :
    build_llm_payload_messages "hi" [] [] (some "")
      = .ok [({ role := "system", content := some SYSTEM_PROMPT } : Message),
             userMessage "## User Request:\nhi"]
    ∧ SYSTEM_PROMPT ≠ "" := by
  constructor
  · rfl
  · decide

/-- C6, amended: whenever the assembler returns, the first element of
its output is exactly one system message — the fixed instruction text,
or the override when one is given and non-empty (an empty-string
override falls back to the fixed text) — and the last element is the
user message, whose content ends in the literal
`"## User Request:\n" ++ prompt`; the call
`assemble("hi", \x7b\x7d, [])` yields exactly `[system, user]` with
user content `"## User Request:\nhi"`. -/
theorem C6_amended_system_first_user_last :
    (∀ (p : String) (ctx : List (String × JValue)) (hist : List Message)
        (ov : Option String) (ms : List Message),
      build_llm_payload_messages p ctx hist ov = .ok ms →
        ms.head? = some (systemMessage ov) ∧
        ∃ pre, ms.getLast? = some (userMessage (pre ++ "## User Request:\n" ++ p))) ∧
    (∀ s : String, s ≠ "" → systemContent (some s) = s) ∧
    systemContent none = SYSTEM_PROMPT ∧
    systemContent (some "") = SYSTEM_PROMPT ∧
    build_llm_payload_messages "hi" [] [] none
      = .ok [systemMessage none, userMessage "## User Request:\nhi"] := by
  refine ⟨?_, ?_, rfl, rfl, rfl⟩
  · intro p ctx hist ov ms h
    cases hb : buildSections ctx with
    | error e =>
      have : build_llm_payload_messages p ctx hist ov = .error e := by
        unfold build_llm_payload_messages
        rw [hb, exbind_err]
      rw [this] at h
      cases h
    | ok secs =>
      have hms : ms = systemMessage ov :: hist ++
          [userMessage ((if secs.isEmpty then ""
              else String.intercalate "\n\n" secs ++ "\n\n") ++ "## User Request:\n" ++ p)] := by
        have : build_llm_payload_messages p ctx hist ov
            = .ok (systemMessage ov :: hist ++
              [userMessage ((if secs.isEmpty then ""
                  else String.intercalate "\n\n" secs ++ "\n\n") ++ "## User Request:\n" ++ p)]) := by
          unfold build_llm_payload_messages
          rw [hb, exbind_ok]
          rfl
        rw [this] at h
        exact (Except.ok.injEq _ _).mp h.symm
      
      subst hms
      constructor
      · rfl
      · refine ⟨(if secs.isEmpty then "" else String.intercalate "\n\n" secs ++ "\n\n"), ?_⟩
        rw [show systemMessage ov :: hist ++
            [userMessage ((if secs.isEmpty then ""
                else String.intercalate "\n\n" secs ++ "\n\n") ++ "## User Request:\n" ++ p)]
            = (systemMessage ov :: hist) ++
              [userMessage ((if secs.isEmpty then ""
                  else String.intercalate "\n\n" secs ++ "\n\n") ++ "## User Request:\n" ++ p)]
          from rfl]
        rw [List.getLast?_concat]
  · intro s hs
    show (if s = "" then SYSTEM_PROMPT else s) = s
    rw [if_neg hs]

/-- C6 witness: the amended theorem instantiated on the concrete call
`assemble("hi", \x7b\x7d, [])` and on a non-empty override. -/
theorem C6_amended_system_first_user_last_witness :
    (([systemMessage none, userMessage "## User Request:\nhi"] : List Message).head?
        = some (systemMessage none) ∧
      ∃ pre, ([systemMessage none, userMessage "## User Request:\nhi"] : List Message).getLast?
        = some (userMessage (pre ++ "## User Request:\n" ++ "hi"))) ∧
    ("x" ≠ "" ∧ systemContent (some "x") = "x") :=
  ⟨C6_amended_system_first_user_last.1 "hi" [] [] none _ rfl,
   ⟨by decide, C6_amended_system_first_user_last.2.1 "x" (by decide)⟩⟩

theorem length_dropWhile_le (p : Char → Bool) (l : List Char) :
    (l.dropWhile p).length ≤ l.length := by
  induction l with
  | nil => simp
  | cons a t ih =>
    rw [List.dropWhile_cons]
    split
    · exact le_trans ih (by simp)
    · simp

theorem pyStrip_length_le (l : List Char) : (pyStrip l).length ≤ l.length := by
  unfold pyStrip pyRStrip pyLStrip
  calc ((l.dropWhile isPySpace).reverse.dropWhile isPySpace).reverse.length
      = ((l.dropWhile isPySpace).reverse.dropWhile isPySpace).length := by
        rw [List.length_reverse]
    _ ≤ (l.dropWhile isPySpace).reverse.length := length_dropWhile_le _ _
    _ = (l.dropWhile isPySpace).length := by rw [List.length_reverse]
    _ ≤ l.length := length_dropWhile_le _ _

theorem dropWhile_append_singleton (p : Char → Bool) (l : List Char) (a : Char)
    (h : p a = false) :
    ∃ s, List.dropWhile p (l ++ [a]) = s ++ [a] := by
  induction l with
  | nil =>
    refine ⟨[], ?_⟩
    rw [List.nil_append, List.dropWhile_cons, h]
    simp
  | cons b t ih =>
    rw [List.cons_append, List.dropWhile_cons]
    split
    · exact ih
    · exact ⟨b :: t, rfl⟩

/-- Left-stripping keeps a non-space head. -/
theorem pyLStrip_cons (c : Char) (t : List Char) (h : isPySpace c = false) :
    pyLStrip (c :: t) = c :: t := by
  unfold pyLStrip
  rw [List.dropWhile_cons, h]
  simp

/-- Right-stripping keeps a non-space last character. -/
theorem pyRStrip_concat (l : List Char) (b : Char) (h : isPySpace b = false) :
    pyRStrip (l ++ [b]) = l ++ [b] := by
  unfold pyRStrip
  rw [List.reverse_append]
  simp only [List.reverse_cons, List.reverse_nil, List.nil_append, List.singleton_append]
  rw [List.dropWhile_cons, h]
  simp

/-- A string with a non-space head and a non-space last character is
unchanged by `strip()`. -/
theorem pyStrip_eq_self (c b : Char) (t : List Char)
    (hc : isPySpace c = false) (hb : isPySpace b = false)
    (hlast : (c :: t).getLast? = some b) :
    pyStrip (c :: t) = c :: t := by
  unfold pyStrip
  rw [pyLStrip_cons c t hc]
  obtain ⟨l', hl'⟩ : ∃ l', c :: t = l' ++ [b] := by
    have hne : c :: t ≠ [] := by simp
    have := List.getLast?_eq_getLast (c :: t) hne
    rw [this] at hlast
    have hg : (c :: t).getLast hne = b := by
      injection hlast
    refine ⟨(c :: t).dropLast, ?_⟩
    rw [← hg]
    exact (List.dropLast_append_getLast hne).symm
  rw [hl', pyRStrip_concat l' b hb]

/-- Stripping keeps a non-space head. -/
theorem pyStrip_head (c : Char) (t : List Char) (hc : isPySpace c = false) :
    ∃ t2, pyStrip (c :: t) = c :: t2 := by
  unfold pyStrip
  rw [pyLStrip_cons c t hc]
  unfold pyRStrip
  rw [List.reverse_cons]
  obtain ⟨s, hs⟩ := dropWhile_append_singleton isPySpace t.reverse c hc
  rw [hs, List.reverse_append]
  exact ⟨s.reverse, rfl⟩

/-- The formatted body always starts with the literal header, hence
with `R`. -/
theorem ragBody_cons (top_k : Nat) (results : List RagResult) :
    ∃ t, ragBody top_k results = 'R' :: t := by
  refine ⟨lit "elevant uiautomator2 Code Snippets Found:\n\n"
    ++ ragBlocks (MAX_RAG_SNIPPET_LEN_FOR_LLM / top_k) 0 results, ?_⟩
  unfold ragBody
  rw [show lit "Relevant uiautomator2 Code Snippets Found:\n\n"
      = 'R' :: lit "elevant uiautomator2 Code Snippets Found:\n\n" from rfl]
  rfl

/-- C7: for every upstream result set, however many results and however
large each text, the Retrieval Client's output is at most the fixed
7000-character ceiling; when the formatted body exceeds the ceiling the
output is its 6900-character prefix with the overall truncation marker
appended; and each individual snippet text is truncated to the
per-snippet budget `7000 / top_k` (stated for every budget of at least
50, which covers the default `top_k = 5`). -/
theorem C7_output_bounded_with_marker (results : List RagResult) (top_k : Nat) :
    (fetch_rag_code_snippets true (.ok results) top_k).length
        ≤ MAX_RAG_SNIPPET_LEN_FOR_LLM ∧
    (results ≠ [] → top_k ≠ 0 →
      MAX_RAG_SNIPPET_LEN_FOR_LLM < (ragBody top_k results).length →
      fetch_rag_code_snippets true (.ok results) top_k
        = (ragBody top_k results).take (MAX_RAG_SNIPPET_LEN_FOR_LLM - 100)
            ++ ragOverallMarker) ∧
    (∀ (m : Nat) (text : List Char), 50 ≤ m → (ragSnippetText m text).length ≤ m) := by
  refine ⟨?_, ?_, ?_⟩
  · unfold fetch_rag_code_snippets
    simp only [Bool.not_true, Bool.false_eq_true, if_false]
    split
    · decide
    · split
      · decide
      · refine le_trans (pyStrip_length_le _) ?_
        split
        · rename_i hlt
          rw [List.length_append, List.length_take]
          have hm : ragOverallMarker.length = 36 := by decide
          rw [hm]
          have h1 : min (MAX_RAG_SNIPPET_LEN_FOR_LLM - 100) (ragBody top_k results).length
              ≤ MAX_RAG_SNIPPET_LEN_FOR_LLM - 100 := min_le_left _ _
          unfold MAX_RAG_SNIPPET_LEN_FOR_LLM at h1 ⊢
          omega
        · rename_i hge
          unfold MAX_RAG_SNIPPET_LEN_FOR_LLM at hge ⊢
          omega
  · intro hne hk hlt
    have hre : results.isEmpty = false := by
      cases results with
      | nil => exact absurd rfl hne
      | cons r rs => rfl
    unfold fetch_rag_code_snippets
    simp only [Bool.not_true, Bool.false_eq_true, if_false, hre, hk, if_neg, hlt, if_pos]
    obtain ⟨tb, htb⟩ := ragBody_cons top_k results
    have htake : (ragBody top_k results).take (MAX_RAG_SNIPPET_LEN_FOR_LLM - 100)
        = 'R' :: tb.take 6899 := by
      rw [htb, show MAX_RAG_SNIPPET_LEN_FOR_LLM - 100 = 6899 + 1 from rfl,
        List.take_succ_cons]
    rw [htake, List.cons_append]
    refine pyStrip_eq_self 'R' ')' (tb.take 6899 ++ ragOverallMarker) (by decide) (by decide) ?_
    rw [show ('R' :: (tb.take 6899 ++ ragOverallMarker))
        = ('R' :: tb.take 6899) ++ ragOverallMarker from rfl]
    rw [List.getLast?_append_of_ne_nil _ (by decide)]
    decide
  · intro m text hm
    unfold ragSnippetText
    split
    · rename_i hlt
      rw [List.length_append]
      have hcut : (pyCut text ((m : Int) - 50)).length ≤ m - 50 := by
        unfold pyCut
        rw [if_pos (by omega)]
        rw [List.length_take]
        have : ((m : Int) - 50).toNat = m - 50 := by omega
        rw [this]
        exact min_le_left _ _
      have hmk : ragSnippetMarker.length = 15 := by decide
      omega
    · rename_i hge
      omega

/-- The C7 witness input really exceeds the ceiling: with `top_k = 1`
and one 7500-character snippet, the formatted body is longer than 7000
characters. -/
theorem ragBody_witness_big :
    MAX_RAG_SNIPPET_LEN_FOR_LLM
      < (ragBody 1 [({ text := List.replicate 7500 'a' } : RagResult)]).length := by
  have h1 : ragSnippetText (MAX_RAG_SNIPPET_LEN_FOR_LLM / 1) (List.replicate 7500 'a')
      = List.replicate 6950 'a' ++ ragSnippetMarker := by
    unfold ragSnippetText pyCut
    rw [if_pos (by rw [List.length_replicate]; decide)]
    rw [if_pos (by decide)]
    rw [show ((MAX_RAG_SNIPPET_LEN_FOR_LLM / 1 : Nat) - 50 : Int).toNat = 6950 from rfl]
    rw [List.take_replicate]
    rfl
  have h2 : pyStrip (List.replicate 6950 'a' ++ ragSnippetMarker)
      = List.replicate 6950 'a' ++ ragSnippetMarker := by
    rw [show (List.replicate 6950 'a' ++ ragSnippetMarker)
        = 'a' :: (List.replicate 6949 'a' ++ ragSnippetMarker) from by
      rw [show (6950 : Nat) = 6949 + 1 from rfl, List.replicate_succ, List.cons_append]]
    refine pyStrip_eq_self 'a' ')' _ (by decide) (by decide) ?_
    rw [show 'a' :: (List.replicate 6949 'a' ++ ragSnippetMarker)
        = ('a' :: List.replicate 6949 'a') ++ ragSnippetMarker from rfl]
    rw [List.getLast?_append_of_ne_nil _ (by decide)]
    decide
  unfold ragBody ragBlocks ragBlock
  rw [h1, h2]
  simp only [List.append_nil, List.length_append, List.length_replicate]
  decide

/-- C7 witness: with `top_k = 1` and a single 7500-character snippet the
body exceeds the ceiling, so the output is the clipped prefix with the
overall marker appended, and its length is at most 7000. -/
theorem C7_output_bounded_with_marker_witness :
    (([({ text := List.replicate 7500 'a' } : RagResult)] : List RagResult) ≠ [] ∧
     (1 : Nat) ≠ 0 ∧
     MAX_RAG_SNIPPET_LEN_FOR_LLM
       < (ragBody 1 [({ text := List.replicate 7500 'a' } : RagResult)]).length ∧
     (50 : Nat) ≤ 1400) ∧
    ((fetch_rag_code_snippets true (.ok [({ text := List.replicate 7500 'a' } : RagResult)]) 1).length
        ≤ MAX_RAG_SNIPPET_LEN_FOR_LLM ∧
     fetch_rag_code_snippets true (.ok [({ text := List.replicate 7500 'a' } : RagResult)]) 1
        = (ragBody 1 [({ text := List.replicate 7500 'a' } : RagResult)]).take
            (MAX_RAG_SNIPPET_LEN_FOR_LLM - 100) ++ ragOverallMarker ∧
     (ragSnippetText 1400 (List.replicate 2000 'b')).length ≤ 1400) :=
  ⟨⟨List.cons_ne_nil _ _, by decide, ragBody_witness_big, by decide⟩,
   (C7_output_bounded_with_marker [({ text := List.replicate 7500 'a' } : RagResult)] 1).1,
   (C7_output_bounded_with_marker [({ text := List.replicate 7500 'a' } : RagResult)] 1).2.1
     (List.cons_ne_nil _ _) (by decide) ragBody_witness_big,
   (C7_output_bounded_with_marker [] 1).2.2 1400 (List.replicate 2000 'b') (by decide)⟩

/-- C8: the Retrieval Client is total (the embedding is a total
function; every exception inside the Python `try` is caught) and (1) on
any transport/HTTP failure it returns the caught message prefixed with
`"Error: "`, (2) on an unconfigured URL it returns an `"Error:"`-prefixed
message, (3) on an empty result set it returns exactly the fixed
no-snippets sentinel, and (4) on a non-empty result set its output is
never that sentinel, so the sentinel is distinguishable from real
content. -/
theorem C8_error_prefix_and_sentinel (top_k : Nat) :
    (∀ msg : List Char,
      fetch_rag_code_snippets true (.failure msg) top_k = lit "Error: " ++ msg) ∧
    (∀ upstream : RagUpstream, ∃ rest,
      fetch_rag_code_snippets false upstream top_k = lit "Error: " ++ rest) ∧
    fetch_rag_code_snippets true (.ok []) top_k = ragSentinel ∧
    (∀ results : List RagResult, results ≠ [] →
      fetch_rag_code_snippets true (.ok results) top_k ≠ ragSentinel) := by
  refine ⟨fun msg => rfl, fun upstream => ?_, rfl, ?_⟩
  · refine ⟨lit "RAG service URL not configured for snippet retrieval.", ?_⟩
    show lit "Error: RAG service URL not configured for snippet retrieval."
        = lit "Error: " ++ lit "RAG service URL not configured for snippet retrieval."
    decide
  · intro results hne heq
    have hre : results.isEmpty = false := by
      cases results with
      | nil => exact absurd rfl hne
      | cons r rs => rfl
    by_cases hk : top_k = 0
    · have : fetch_rag_code_snippets true (.ok results) top_k
          = lit "Error: integer division or modulo by zero" := by
        unfold fetch_rag_code_snippets
        simp only [Bool.not_true, Bool.false_eq_true, if_false, hre, hk, if_pos]
      rw [this] at heq
      exact absurd (congrArg List.head? heq) (by decide)
    · have hhead : (fetch_rag_code_snippets true (.ok results) top_k).head? = some 'R' := by
        unfold fetch_rag_code_snippets
        simp only [Bool.not_true, Bool.false_eq_true, if_false, hre, hk, if_neg]
        obtain ⟨tb, htb⟩ := ragBody_cons top_k results
        split
        · have htake : (ragBody top_k results).take (MAX_RAG_SNIPPET_LEN_FOR_LLM - 100)
              = 'R' :: tb.take 6899 := by
            rw [htb, show MAX_RAG_SNIPPET_LEN_FOR_LLM - 100 = 6899 + 1 from rfl,
              List.take_succ_cons]
          rw [htake, List.cons_append]
          obtain ⟨t2, ht2⟩ := pyStrip_head 'R' (tb.take 6899 ++ ragOverallMarker) (by decide)
          rw [ht2]
          rfl
        · rw [htb]
          obtain ⟨t2, ht2⟩ := pyStrip_head 'R' tb (by decide)
          rw [ht2]
          rfl
      rw [heq] at hhead
      exact absurd hhead (by decide)

/-- C8 witness: concrete instances of all four clauses at the default
`top_k = 5`. -/
theorem C8_error_prefix_and_sentinel_witness :
    fetch_rag_code_snippets true (.failure (lit "connection reset")) 5
      = lit "Error: " ++ lit "connection reset" ∧
    (∃ rest, fetch_rag_code_snippets false (.ok []) 5 = lit "Error: " ++ rest) ∧
    fetch_rag_code_snippets true (.ok []) 5 = ragSentinel ∧
    (([({ text := lit "print(1)" } : RagResult)] : List RagResult) ≠ [] ∧
     fetch_rag_code_snippets true (.ok [({ text := lit "print(1)" } : RagResult)]) 5
       ≠ ragSentinel) :=
  ⟨(C8_error_prefix_and_sentinel 5).1 (lit "connection reset"),
   (C8_error_prefix_and_sentinel 5).2.1 (.ok []),
   (C8_error_prefix_and_sentinel 5).2.2.1,
   by simp,
   (C8_error_prefix_and_sentinel 5).2.2.2 [({ text := lit "print(1)" } : RagResult)]
     (by simp)⟩

/-- A non-200 initial status short-circuits the iteration loop to the
error/end-of-stream pair after exactly one upstream call. -/
theorem http_error_round (provider : Nat → ProviderResponse)
    (p : String → Except String String) (f : String → String)
    (rem calls : Nat) (msgs : List Message)
    (hs : (provider calls).status ≠ 200) :
    runIterationsFrom provider p f (rem + 1) calls msgs
      = ([Event.errorEv ("LLM API Error (" ++ toString (provider calls).status ++ ")"),
          Event.endOfStream "Stream ended due to API error"], calls + 1, msgs) := by
  simp only [runIterationsFrom, if_pos hs]

/-- C9, counterexample. The claim says the error event carries both the
status code and the response body, surfacing a nested JSON error
message preferentially. In the service generator a 500 response whose
body is JSON with the nested message `boom` produces the error event
text `LLM API Error (500)`: neither the body nor `boom` occurs in it,
and no JSON extraction exists anywhere on this path. -/
theorem C9_counterexample_body_not_surfaced :
    (generate_chat_completion_stream (some "k") []
        (fun _ =>
          ({ status := 500,
             body := "\x7b\x22error\x22: \x7b\x22message\x22: \x22boom\x22\x7d\x7d" } : ProviderResponse))
        (fun _ => Except.error "") (fun _ => "")).1
      = [Event.errorEv "LLM API Error (500)",
         Event.endOfStream "Stream ended due to API error"]
    ∧ strContainsSubstr "LLM API Error (500)" "boom" = false
    ∧ strContainsSubstr "LLM API Error (500)"
        "\x7b\x22error\x22: \x7b\x22message\x22: \x22boom\x22\x7d\x7d" = false := by
  refine ⟨rfl, by decide, by decide⟩

/-- C9, amended: on a non-200 initial status the body is read once and
only logged; the service generator immediately emits an error event
carrying the status code alone, followed by end_of_stream, and makes no
further upstream call (exactly one call total); the app generator emits
a single error event carrying the status code and the raw decoded body
(with no end_of_stream after it); neither extracts a nested JSON error
message. -/
theorem C9_amended_non200_short_circuit (key : Option String) (msgs : List Message)
    (provider : Nat → ProviderResponse) (p : String → Except String String)
    (f : String → String) (hk : optTruthy key = true)
    (hs : (provider 0).status ≠ 200) :
    generate_chat_completion_stream key msgs provider p f
      = ([Event.errorEv ("LLM API Error (" ++ toString (provider 0).status ++ ")"),
          Event.endOfStream "Stream ended due to API error"], 1, msgs) ∧
    (∀ (key2 : Option String) (resp : AppProviderResponse),
      optTruthy key2 = true → resp.status ≠ 200 →
      stream_deepseek_response key2 resp
        = [Event.errorEv ("LLM API Error (" ++ toString resp.status ++ "): " ++ resp.body)]) := by
  constructor
  · have hgen : generate_chat_completion_stream key msgs provider p f
        = runIterationsFrom provider p f 3 0 msgs := by
      unfold generate_chat_completion_stream
      simp [hk]
    have e1 : runIterationsFrom provider p f 3 0 msgs
        = ([Event.errorEv ("LLM API Error (" ++ toString (provider 0).status ++ ")"),
            Event.endOfStream "Stream ended due to API error"], 1, msgs) :=
      http_error_round provider p f 2 0 msgs hs
    rw [hgen, e1]
  · intro key2 resp hk2 hs2
    unfold stream_deepseek_response
    rw [if_neg (by simp [hk2]), if_pos hs2]

/-- C9 witness: a 500 response with body `oops`, against both
generators, fully instantiated. -/
theorem C9_amended_non200_short_circuit_witness :
    (optTruthy (some "k") = true ∧
     (((fun _ => ({ status := 500, body := "oops" } : ProviderResponse)) (0 : Nat)).status ≠ 200) ∧
     optTruthy (some "k2") = true ∧
     (({ status := 404, body := "nf" } : AppProviderResponse).status ≠ 200)) ∧
    (generate_chat_completion_stream (some "k") []
        (fun _ => ({ status := 500, body := "oops" } : ProviderResponse))
        (fun _ => Except.error "") (fun _ => "")
      = ([Event.errorEv ("LLM API Error (" ++ toString
            ((fun _ => ({ status := 500, body := "oops" } : ProviderResponse)) (0 : Nat)).status ++ ")"),
          Event.endOfStream "Stream ended due to API error"], 1, [])) ∧
    stream_deepseek_response (some "k2") ({ status := 404, body := "nf" } : AppProviderResponse)
      = [Event.errorEv ("LLM API Error ("
          ++ toString ({ status := 404, body := "nf" } : AppProviderResponse).status ++ "): "
          ++ ({ status := 404, body := "nf" } : AppProviderResponse).body)] :=
  ⟨⟨rfl, by decide, rfl, by decide⟩,
   (C9_amended_non200_short_circuit (some "k") []
     (fun _ => ({ status := 500, body := "oops" } : ProviderResponse))
     (fun _ => Except.error "") (fun _ => "") rfl (by decide)).1,
   (C9_amended_non200_short_circuit (some "k") []
     (fun _ => ({ status := 500, body := "oops" } : ProviderResponse))
     (fun _ => Except.error "") (fun _ => "") rfl (by decide)).2
     (some "k2") ({ status := 404, body := "nf" } : AppProviderResponse) rfl (by decide)⟩

end UiAutoDev

